import Mathlib

/-!
# Shallow embedding of kotekan's frame-buffer fabric (`src/lib/core/buffer.c`)

This file models the multi-producer / multi-consumer frame buffer of the
kotekan pipeline and proves properties of its operations.

Modelling conventions:
* C `int` slot indices are `Nat` (the code asserts `ID >= 0` on entry of the
  checked operations, so the negative range never survives an assertion);
  per-slot arrays become total functions `Nat → _`, so an out-of-range access
  is representable (it reads the function beyond `num_frames`), mirroring the
  fact that C performs no bounds check at the access itself.
* `assert` / fatal error paths are modelled by returning `none`: a `none`
  result means the C process aborts and the call never returns.
* The role tables `producers[MAX_PRODUCERS]` / `consumers[MAX_CONSUMERS]`
  are total functions indexed below the capacities `max_producers` /
  `max_consumers` (the compile-time constants live in `buffer.h`, which is
  not part of this excerpt; the loops of `buffer.c` only ever scan
  `0 .. MAX-1`, which the embedding reproduces with `List.range`).
* The metadata containers managed by `metadata.c` are identified by `Nat`
  ids; their reference counts live in an explicit map `Nat → Nat` that the
  operations thread through.
* Stage names are unbounded `String`s; the C truncation at
  `MAX_STAGE_NAME_LEN` (`strncpy`/`strncmp`) is not modelled.
* Calls into the pthread layer (lock/unlock, condition broadcasts) are
  modelled by the sequential order of the critical sections; a broadcast is
  reported as a `Bool` in the operation's result.  The asynchronous zeroing
  thread spawned by `private_mark_frame_empty` is modelled as an explicit
  pending task whose body `private_zero_frames` is a separate step.
-/

/-- One row of a buffer's producer or consumer table (`struct.*producers` /
`consumers` entries in `buffer.h`): an in-use flag, the registered stage
name, and the last frame acquired/released (−1 when none yet). -/
structure RoleRecord where
  in_use : Bool
  name : String
  last_frame_acquired : Int
  last_frame_released : Int
deriving DecidableEq, Repr

/-- The `struct Buffer` state of `buffer.c`, at the granularity the public
operations observe under the buffer lock.  Frame storage pointers are
abstract `Nat` addresses; frame byte contents live in a separate heap
(`Nat → Nat → Nat`, pointer → offset → byte) threaded only by the zeroing
task, which is the only operation here that touches frame contents. -/
structure Buffer where
  num_frames : Nat
  frame_size : Nat
  aligned_frame_size : Nat
  buffer_name : String
  buffer_type : String
  max_producers : Nat
  max_consumers : Nat
  is_full : Nat → Bool
  frames : Nat → Nat
  metadata : Nat → Option Nat
  producers : Nat → RoleRecord
  consumers : Nat → RoleRecord
  producers_done : Nat → Nat → Bool
  consumers_done : Nat → Nat → Bool
  shutdown_signal : Bool
  zero_frames : Bool
  last_arrival_time : Nat

/-- Modelled from the spec (§4.2, `metadata.c` is not part of the excerpt):
`increment_metadata_ref_count` adjusts the container's count under the
pool's lock; here the count map is updated at the container's id. -/
def increment_metadata_ref_count (refcnt : Nat → Nat) (mc : Nat) : Nat → Nat :=
  fun c => if c = mc then refcnt c + 1 else refcnt c

/-- Modelled from the spec (§4.2, `metadata.c` is not part of the excerpt):
`decrement_metadata_ref_count` decrements the container's count; when the
count reaches zero the container returns to the pool's free list (the free
list itself is not observed by any claim, so only the count is tracked). -/
def decrement_metadata_ref_count (refcnt : Nat → Nat) (mc : Nat) : Nat → Nat :=
  fun c => if c = mc then refcnt c - 1 else refcnt c

/-- `private_get_consumer_id`: index of the first in-use consumer row whose
name matches, scanning `0 .. MAX_CONSUMERS-1`; `none` for the C return −1. -/
def private_get_consumer_id (buf : Buffer) (name : String) : Option Nat :=
  (List.range buf.max_consumers).find? fun i =>
    (buf.consumers i).in_use && (buf.consumers i).name == name

/-- `private_get_producer_id`: index of the first in-use producer row whose
name matches, scanning `0 .. MAX_PRODUCERS-1`; `none` for the C return −1. -/
def private_get_producer_id (buf : Buffer) (name : String) : Option Nat :=
  (List.range buf.max_producers).find? fun i =>
    (buf.producers i).in_use && (buf.producers i).name == name

/-- `private_consumers_done`: 1 iff no in-use consumer has a clear done bit
for the slot (vacuously 1 when no consumer is registered). -/
def private_consumers_done (buf : Buffer) (id : Nat) : Bool :=
  (List.range buf.max_consumers).all fun i =>
    !((buf.consumers i).in_use && !(buf.consumers_done id i))

/-- `private_producers_done`: 1 iff no in-use producer has a clear done bit
for the slot (vacuously 1 when no producer is registered). -/
def private_producers_done (buf : Buffer) (id : Nat) : Bool :=
  (List.range buf.max_producers).all fun i =>
    !((buf.producers i).in_use && !(buf.producers_done id i))

/-- `private_reset_producers`: `memset` of the producer-done row of a slot. -/
def private_reset_producers (buf : Buffer) (id : Nat) : Buffer :=
  { buf with producers_done := fun s i =>
      if s = id then false else buf.producers_done s i }

/-- `private_reset_consumers`: `memset` of the consumer-done row of a slot. -/
def private_reset_consumers (buf : Buffer) (id : Nat) : Buffer :=
  { buf with consumers_done := fun s i =>
      if s = id then false else buf.consumers_done s i }

/-- `private_mark_consumer_done`: looks the consumer up by name (aborting if
unknown — `assert(consumer_id != -1)` — or if its done bit is already set),
records `last_frame_released` and sets the done bit. -/
def private_mark_consumer_done (buf : Buffer) (name : String) (id : Nat) :
    Option Buffer :=
  match private_get_consumer_id buf name with
  | none => none
  | some cid =>
    if buf.consumers_done id cid then none
    else some { buf with
      consumers := fun i =>
        if i = cid then { buf.consumers i with last_frame_released := (id : Int) }
        else buf.consumers i,
      consumers_done := fun s i =>
        if s = id ∧ i = cid then true else buf.consumers_done s i }

/-- `private_mark_producer_done`: looks the producer up by name (aborting if
unknown or if its done bit is already set), records `last_frame_released`
and sets the done bit. -/
def private_mark_producer_done (buf : Buffer) (name : String) (id : Nat) :
    Option Buffer :=
  match private_get_producer_id buf name with
  | none => none
  | some pid =>
    if buf.producers_done id pid then none
    else some { buf with
      producers := fun i =>
        if i = pid then { buf.producers i with last_frame_released := (id : Int) }
        else buf.producers i,
      producers_done := fun s i =>
        if s = id ∧ i = pid then true else buf.producers_done s i }

/-- Result of `mark_frame_full`: the updated buffer and refcount map, the
`set_full` flag (a `full_cond` broadcast was issued after unlocking) and the
`set_empty` flag (the no-consumer drop path ran; its `empty_cond` broadcast
is commented out in the source, so no wake-up happens for it). -/
structure MarkFullResult where
  buf : Buffer
  refcnt : Nat → Nat
  set_full : Bool
  set_empty : Bool

/-- The metadata release step shared by the drop path of `mark_frame_full`
(lines 206–209) and `private_mark_frame_empty` (lines 312–315): if the slot
holds a container, decrement its refcount and null the reference. -/
def release_slot_metadata (refcnt : Nat → Nat) (buf : Buffer) (id : Nat) :
    Buffer × (Nat → Nat) :=
  match buf.metadata id with
  | some mc =>
    ({ buf with metadata := fun s => if s = id then none else buf.metadata s },
      decrement_metadata_ref_count refcnt mc)
  | none => (buf, refcnt)

/-- Lines 196–199 of `mark_frame_full`: reset the producer-done row, set
`is_full[ID] = 1`, and record `last_arrival_time = e_time()`. -/
def mark_full_transition (buf1 : Buffer) (id : Nat) (now : Nat) : Buffer :=
  { private_reset_producers buf1 id with
    is_full := fun s => if s = id then true else buf1.is_full s,
    last_arrival_time := now }

/-- Lines 203–211 of `mark_frame_full` (the "no consumers registered" drop
path): clear `is_full[ID]`, release the bound metadata, and reset the
consumer-done row; both `set_full` and `set_empty` end up 1. -/
def mark_full_drop (refcnt : Nat → Nat) (buf2 : Buffer) (id : Nat) :
    MarkFullResult :=
  match release_slot_metadata refcnt
      { buf2 with is_full := fun s => if s = id then false else buf2.is_full s } id with
  | (b, rc) => ⟨private_reset_consumers b id, rc, true, true⟩

/-- `mark_frame_full(buf, name, ID)` with `now` standing for `e_time()`:
asserts the slot index is in range, sets this producer's done bit, and —
when all in-use producers are now done — resets the producer-done row, sets
`is_full`, records the arrival time, and, if all in-use consumers are
(vacuously) done, immediately drops the frame again. -/
def mark_frame_full (refcnt : Nat → Nat) (buf : Buffer) (name : String)
    (id : Nat) (now : Nat) : Option MarkFullResult :=
  if id < buf.num_frames then
    match private_mark_producer_done buf name id with
    | none => none
    | some buf1 =>
      if private_producers_done buf1 id then
        if private_consumers_done (mark_full_transition buf1 id now) id then
          some (mark_full_drop refcnt (mark_full_transition buf1 id now) id)
        else
          some ⟨mark_full_transition buf1 id now, refcnt, true, false⟩
      else
        some ⟨buf1, refcnt, false, false⟩
  else none

/-- Result of the (possibly deferred) empty transition: buffer, refcounts,
whether `empty_cond` is broadcast by this call, and whether an asynchronous
zeroing task was spawned for the slot. -/
structure MarkEmptyResult where
  buf : Buffer
  refcnt : Nat → Nat
  broadcast : Bool
  spawned : Bool

/-- Lines 308–309 of `private_mark_frame_empty` (the synchronous branch):
clear `is_full[id]` and reset the consumer-done row. -/
def empty_transition (buf : Buffer) (id : Nat) : Buffer :=
  { private_reset_consumers buf id with
    is_full := fun s => if s = id then false else buf.is_full s }

/-- `private_mark_frame_empty(buf, id)`: if zeroing is enabled, spawn the
detached zeroing thread (the flag `spawned`) and defer clearing `is_full`
and resetting the consumer row to that task; otherwise clear `is_full`,
reset the consumer-done row and report `broadcast = 1`.  In both branches
the bound metadata reference (if any) is released and nulled. -/
def private_mark_frame_empty (refcnt : Nat → Nat) (buf : Buffer) (id : Nat) :
    MarkEmptyResult :=
  if buf.zero_frames then
    match release_slot_metadata refcnt buf id with
    | (b, rc) => ⟨b, rc, false, true⟩
  else
    match release_slot_metadata refcnt (empty_transition buf id) id with
    | (b, rc) => ⟨b, rc, true, false⟩

/-- `mark_frame_empty(buf, consumer_name, ID)`: asserts the slot index is in
range, sets this consumer's done bit, and when all in-use consumers are now
done performs `private_mark_frame_empty`; `empty_cond` is broadcast after
unlocking iff that call reported it. -/
def mark_frame_empty (refcnt : Nat → Nat) (buf : Buffer) (consumer_name : String)
    (id : Nat) : Option MarkEmptyResult :=
  if id < buf.num_frames then
    match private_mark_consumer_done buf consumer_name id with
    | none => none
    | some buf1 =>
      if private_consumers_done buf1 id then
        some (private_mark_frame_empty refcnt buf1 id)
      else
        some ⟨buf1, refcnt, false, false⟩
  else none

/-- Body of the detached zeroing thread `private_zero_frames`: zeroes
`frame_size` bytes behind the slot's storage pointer (the `nt_memset` of the
256-aligned prefix followed by the `memset` of the remainder), then under
the lock clears `is_full` and resets the consumer-done row, and finally
broadcasts `empty_cond` (the returned `Bool`, always true).  The thread
asserts `ID <= num_frames`. -/
def private_zero_frames (buf : Buffer) (heap : Nat → Nat → Nat) (id : Nat) :
    Option (Buffer × (Nat → Nat → Nat) × Bool) :=
  if id ≤ buf.num_frames then
    let heap1 : Nat → Nat → Nat := fun p off =>
      if p = buf.frames id ∧ off < buf.frame_size then 0 else heap p off
    some ({ buf with
        is_full := fun s => if s = id then false else buf.is_full s,
        consumers_done := fun s i => if s = id then false else buf.consumers_done s i },
      heap1, true)
  else none

/-- `zero_frames(buf)`: enables the zero-on-release policy. -/
def zero_frames (buf : Buffer) : Buffer :=
  { buf with zero_frames := true }

/-- Outcome of an acquire call in the sequential model: the call returns the
frame pointer (recording `last_frame_acquired`), returns null under
shutdown, or sleeps on the condition variable. -/
inductive WaitOutcome where
  | got (frame : Nat) (buf : Buffer)
  | shutdownNull (buf : Buffer)
  | blocked
deriving Nonempty

/-- `wait_for_empty_frame(buf, producer_name, ID)`: asserts the slot index
is in range and the producer registered; the wait loop sleeps while
`(is_full[ID] ∨ producers_done[ID][pid]) ∧ ¬shutdown`; on exit the call
returns null if the shutdown flag is set, else records
`last_frame_acquired = ID` and returns `frames[ID]`. -/
def wait_for_empty_frame (buf : Buffer) (producer_name : String) (id : Nat) :
    Option WaitOutcome :=
  if id < buf.num_frames then
    match private_get_producer_id buf producer_name with
    | none => none
    | some pid =>
      if buf.shutdown_signal then some (.shutdownNull buf)
      else if buf.is_full id || buf.producers_done id pid then some .blocked
      else
        some (.got (buf.frames id)
          { buf with producers := fun i =>
              if i = pid then { buf.producers i with last_frame_acquired := (id : Int) }
              else buf.producers i })
  else none

/-- `wait_for_full_frame(buf, name, ID)`: asserts only that the consumer is
registered — there is no range assertion on `ID` in the source; the wait
loop sleeps while `(¬is_full[ID] ∨ consumers_done[ID][cid]) ∧ ¬shutdown`;
on exit the call returns null under shutdown, else records
`last_frame_acquired = ID` and returns `frames[ID]`. -/
def wait_for_full_frame (buf : Buffer) (name : String) (id : Nat) :
    Option WaitOutcome :=
  match private_get_consumer_id buf name with
  | none => none
  | some cid =>
    if buf.shutdown_signal then some (.shutdownNull buf)
    else if !buf.is_full id || buf.consumers_done id cid then some .blocked
    else
      some (.got (buf.frames id)
        { buf with consumers := fun i =>
            if i = cid then { buf.consumers i with last_frame_acquired := (id : Int) }
            else buf.consumers i })

/-- The three return values of `wait_for_full_frame_timeout`:
`ok` = 0, `timeout` = 1 (`ETIMEDOUT`), `shutdown` = −1. -/
inductive TimedWaitOutcome where
  | ok
  | timeout
  | shutdown
deriving DecidableEq, Repr

/-- `wait_for_full_frame_timeout(buf, name, ID, timeout)` in the sequential
model (no concurrent state change while waiting; the absolute deadline —
already elapsed or not — eventually elapses, making `pthread_cond_timedwait`
return `ETIMEDOUT`): asserts the consumer is registered; returns −1 when
the shutdown flag is set, 0 with `last_frame_acquired` recorded when
`is_full[ID] ∧ ¬consumers_done[ID][cid]` already holds (no sleeping), and
`ETIMEDOUT` → 1 otherwise.  With an already-elapsed deadline the very first
`pthread_cond_timedwait` returns `ETIMEDOUT`, so no blocking occurs. -/
def wait_for_full_frame_timeout (buf : Buffer) (name : String) (id : Nat) :
    Option (TimedWaitOutcome × Buffer) :=
  match private_get_consumer_id buf name with
  | none => none
  | some cid =>
    if buf.shutdown_signal then some (.shutdown, buf)
    else if buf.is_full id && !(buf.consumers_done id cid) then
      some (.ok,
        { buf with consumers := fun i =>
            if i = cid then { buf.consumers i with last_frame_acquired := (id : Int) }
            else buf.consumers i })
    else some (.timeout, buf)

/-- `register_consumer(buf, name)`: aborts on a duplicate name and when the
table has no free row; otherwise claims the first free row, seeding the
last-acquired/released fields with −1. -/
def register_consumer (buf : Buffer) (name : String) : Option Buffer :=
  if (private_get_consumer_id buf name).isSome then none
  else
    match (List.range buf.max_consumers).find? (fun i => !(buf.consumers i).in_use) with
    | some i0 =>
      some { buf with consumers := fun i =>
        if i = i0 then ⟨true, name, -1, -1⟩ else buf.consumers i }
    | none => none

/-- `register_producer(buf, name)`: aborts on a duplicate name and when the
table has no free row; otherwise claims the first free row, seeding the
last-acquired/released fields with −1. -/
def register_producer (buf : Buffer) (name : String) : Option Buffer :=
  if (private_get_producer_id buf name).isSome then none
  else
    match (List.range buf.max_producers).find? (fun i => !(buf.producers i).in_use) with
    | some i0 =>
      some { buf with producers := fun i =>
        if i = i0 then ⟨true, name, -1, -1⟩ else buf.producers i }
    | none => none

/-- The per-slot loop of `unregister_consumer`: for each slot id in order,
if all remaining in-use consumers are done for it, run
`private_mark_frame_empty`, accumulating the broadcast flag and the list of
slots for which a zeroing task was spawned. -/
def unregister_loop (refcnt : Nat → Nat) (buf : Buffer) :
    List Nat → Buffer × (Nat → Nat) × Bool × List Nat
  | [] => (buf, refcnt, false, [])
  | id :: rest =>
    if private_consumers_done buf id then
      match private_mark_frame_empty refcnt buf id with
      | ⟨b1, rc1, br1, sp1⟩ =>
        match unregister_loop rc1 b1 rest with
        | (b2, rc2, br2, sp2) => (b2, rc2, br1 || br2, (if sp1 then [id] else []) ++ sp2)
    else
      unregister_loop refcnt buf rest

/-- `unregister_consumer(buf, name)`: clears the named consumer's row (the
source only logs when the name is unknown and then writes through index −1,
which the model treats as an aborting access), then scans every slot and
empties those whose remaining in-use consumers are all done, broadcasting
`empty_cond` once at the end iff any of those calls asked for it. -/
def unregister_consumer (refcnt : Nat → Nat) (buf : Buffer) (name : String) :
    Option (Buffer × (Nat → Nat) × Bool × List Nat) :=
  match private_get_consumer_id buf name with
  | none => none
  | some cid =>
    let buf1 := { buf with
      consumers := fun i =>
        if i = cid then { buf.consumers i with in_use := false, name := "unregistered" }
        else buf.consumers i }
    some (unregister_loop refcnt buf1 (List.range buf1.num_frames))

/-- `get_num_consumers(buf)`: number of in-use consumer rows. -/
def get_num_consumers (buf : Buffer) : Nat :=
  (List.range buf.max_consumers).countP fun i => (buf.consumers i).in_use

/-- `get_num_producers(buf)`: number of in-use producer rows. -/
def get_num_producers (buf : Buffer) : Nat :=
  (List.range buf.max_producers).countP fun i => (buf.producers i).in_use

/-- `send_shutdown_signal(buf)`: sets the shutdown flag under the lock and
broadcasts both condition variables. -/
def send_shutdown_signal (buf : Buffer) : Buffer :=
  { buf with shutdown_signal := true }

/-- `pass_metadata(from_buf, from_ID, to_buf, to_ID)`: warns and leaves the
destination untouched when the source slot holds no container; when the
destination slot is empty, binds it to the source's container and
increments that container's refcount; finally asserts the destination now
holds exactly the source's container (aborting when it already held a
different one). -/
def pass_metadata (refcnt : Nat → Nat) (from_buf : Buffer) (from_id : Nat)
    (to_buf : Buffer) (to_id : Nat) : Option (Buffer × (Nat → Nat)) :=
  match from_buf.metadata from_id with
  | none => some (to_buf, refcnt)
  | some mc =>
    match to_buf.metadata to_id with
    | none =>
      some ({ to_buf with metadata := fun s => if s = to_id then some mc else to_buf.metadata s },
        increment_metadata_ref_count refcnt mc)
    | some existing =>
      if existing = mc then some (to_buf, refcnt) else none

/-- `allocate_new_metadata_object(buf, ID)` with the container drawn from
the pool passed in as `fresh` (modelled from the spec §4.2: `request()`
draws a container and sets its refcount to 1; exhaustion, which aborts via
`CHECK_MEM_F`, is the `none` of the `fresh?` argument): asserts the slot is
in range, and binds the slot only when it holds no container yet. -/
def allocate_new_metadata_object (refcnt : Nat → Nat) (buf : Buffer) (id : Nat)
    (fresh? : Option Nat) : Option (Buffer × (Nat → Nat)) :=
  if id < buf.num_frames then
    match buf.metadata id with
    | some _ => some (buf, refcnt)
    | none =>
      match fresh? with
      | none => none
      | some fresh =>
        some ({ buf with metadata := fun s => if s = id then some fresh else buf.metadata s },
          fun c => if c = fresh then 1 else refcnt c)
  else none

/-- `swap_frames(from_buf, from_frame_id, to_buf, to_frame_id)`: asserts
valid slot indices, equal aligned frame sizes, exactly one consumer on the
source and exactly one producer on the destination (the source also asserts
the two buffer pointers differ, which the model renders by operating on two
separate states), then exchanges the two raw storage pointers. -/
def swap_frames (from_buf : Buffer) (from_frame_id : Nat) (to_buf : Buffer)
    (to_frame_id : Nat) : Option (Buffer × Buffer) :=
  if from_frame_id < from_buf.num_frames ∧ to_frame_id < to_buf.num_frames
      ∧ from_buf.aligned_frame_size = to_buf.aligned_frame_size
      ∧ get_num_consumers from_buf = 1 ∧ get_num_producers to_buf = 1 then
    some
      ({ from_buf with frames := fun i =>
          if i = from_frame_id then to_buf.frames to_frame_id else from_buf.frames i },
        { to_buf with frames := fun i =>
          if i = to_frame_id then from_buf.frames from_frame_id else to_buf.frames i })
  else none

/-- `create_buffer(num_frames, len, pool, name, type, numa_node)`: asserts
`num_frames > 0`; all slots start empty with cleared done rows and no
metadata, no role registered, shutdown and zero-on-release clear, and
`aligned_frame_size = len` (the source sets the aligned size equal to the
requested size and asserts `aligned_frame_size >= frame_size`).  The
freshly `buffer_malloc`ed storage pointers arrive as `framePtrs`. -/
def create_buffer (num_frames frame_size : Nat) (buffer_name buffer_type : String)
    (max_producers max_consumers : Nat) (framePtrs : Nat → Nat) : Option Buffer :=
  if 0 < num_frames then
    some {
      num_frames := num_frames,
      frame_size := frame_size,
      aligned_frame_size := frame_size,
      buffer_name := buffer_name,
      buffer_type := buffer_type,
      max_producers := max_producers,
      max_consumers := max_consumers,
      is_full := fun _ => false,
      frames := framePtrs,
      metadata := fun _ => none,
      producers := fun _ => ⟨false, "", -1, -1⟩,
      consumers := fun _ => ⟨false, "", -1, -1⟩,
      producers_done := fun _ _ => false,
      consumers_done := fun _ _ => false,
      shutdown_signal := false,
      zero_frames := false,
      last_arrival_time := 0 }
  else none

/-- One public call on a single buffer, as used by the reachability
arguments.  `markFullOp` carries the `e_time()` reading; `allocMetadataOp`
carries the container the pool hands out (`none` = pool exhausted).  The
remaining public surface is covered elsewhere: `is_frame_empty`,
`get_num_full_frames`, `get_num_consumers`, `get_num_producers`,
`get_last_arrival_time`, `get_metadata`, `get_metadata_container` and the
print functions only read state under the lock, and the inter-buffer
operators (`pass_metadata`, `copy_metadata`, `swap_frames`,
`safe_swap_frame`, `swap_external_frame`) touch only the metadata
reference, metadata bytes, or the frame pointers of the buffers
involved — never the full flags, done rows or role tables. -/
inductive BufOp where
  | registerProducerOp (name : String)
  | registerConsumerOp (name : String)
  | unregisterConsumerOp (name : String)
  | markFullOp (name : String) (id : Nat) (now : Nat)
  | markEmptyOp (name : String) (id : Nat)
  | waitEmptyOp (name : String) (id : Nat)
  | waitFullOp (name : String) (id : Nat)
  | waitFullTimeoutOp (name : String) (id : Nat)
  | allocMetadataOp (id : Nat) (fresh? : Option Nat)
  | zeroFramesOp
  | sendShutdownOp

/-- State after one public call returns (`none` = the call aborted on an
assertion and never returns).  A `blocked` acquire has not returned and
leaves the observable state unchanged. -/
def applyOp (refcnt : Nat → Nat) (buf : Buffer) : BufOp → Option ((Nat → Nat) × Buffer)
  | .registerProducerOp name =>
    match register_producer buf name with
    | none => none
    | some b => some (refcnt, b)
  | .registerConsumerOp name =>
    match register_consumer buf name with
    | none => none
    | some b => some (refcnt, b)
  | .unregisterConsumerOp name =>
    match unregister_consumer refcnt buf name with
    | none => none
    | some (b, rc1, _, _) => some (rc1, b)
  | .markFullOp name id now =>
    match mark_frame_full refcnt buf name id now with
    | none => none
    | some r => some (r.refcnt, r.buf)
  | .markEmptyOp name id =>
    match mark_frame_empty refcnt buf name id with
    | none => none
    | some r => some (r.refcnt, r.buf)
  | .waitEmptyOp name id =>
    match wait_for_empty_frame buf name id with
    | none => none
    | some (.got _ b) => some (refcnt, b)
    | some (.shutdownNull b) => some (refcnt, b)
    | some .blocked => some (refcnt, buf)
  | .waitFullOp name id =>
    match wait_for_full_frame buf name id with
    | none => none
    | some (.got _ b) => some (refcnt, b)
    | some (.shutdownNull b) => some (refcnt, b)
    | some .blocked => some (refcnt, buf)
  | .waitFullTimeoutOp name id =>
    match wait_for_full_frame_timeout buf name id with
    | none => none
    | some (_, b) => some (refcnt, b)
  | .allocMetadataOp id fresh? =>
    match allocate_new_metadata_object refcnt buf id fresh? with
    | none => none
    | some (b, rc1) => some (rc1, b)
  | .zeroFramesOp => some (refcnt, zero_frames buf)
  | .sendShutdownOp => some (refcnt, send_shutdown_signal buf)

/-- Run a list of public calls left to right, aborting on the first
assertion failure. -/
def runOps (refcnt : Nat → Nat) (buf : Buffer) : List BufOp → Option ((Nat → Nat) × Buffer)
  | [] => some (refcnt, buf)
  | op :: rest =>
    match applyOp refcnt buf op with
    | none => none
    | some (rc1, b1) => runOps rc1 b1 rest

/-- The producer discipline guaranteed by acquiring through
`wait_for_empty_frame`: a producer only marks full a slot that is not
currently full (`wait_for_empty_frame` refuses to hand out a full slot). -/
def producer_disciplined (buf : Buffer) : BufOp → Prop
  | .markFullOp _ id _ => buf.is_full id = false
  | _ => True

/-- A run of public calls in which every `mark_frame_full` respects the
producer discipline. -/
inductive DisciplinedRun :
    (Nat → Nat) → Buffer → List BufOp → (Nat → Nat) → Buffer → Prop where
  | nil (rc : Nat → Nat) (buf : Buffer) : DisciplinedRun rc buf [] rc buf
  | cons {rc : Nat → Nat} {buf : Buffer} {op : BufOp} {rc1 : Nat → Nat} {b1 : Buffer}
      {ops : List BufOp} {rc2 : Nat → Nat} {b2 : Buffer}
      (hd : producer_disciplined buf op)
      (hstep : applyOp rc buf op = some (rc1, b1))
      (hrest : DisciplinedRun rc1 b1 ops rc2 b2) :
      DisciplinedRun rc buf (op :: ops) rc2 b2

/-- The corrected per-slot invariant (§3 of the spec, with the producer
clause matching the code): a full slot has its producer-done row freshly
reset — every registered producer's bit is clear — and not every registered
consumer is done with it. -/
def BufferInvariant (buf : Buffer) : Prop :=
  ∀ s, s < buf.num_frames → buf.is_full s = true →
    (∀ i, i < buf.max_producers → (buf.producers i).in_use = true →
      buf.producers_done s i = false)
    ∧ private_consumers_done buf s = false

/-- Auxiliary invariant: producer rows that are not in use carry no done
bits (there is no `unregister_producer` in `buffer.c`, and done bits are
only ever set through `private_mark_producer_done` on an in-use row). -/
def UnusedProducerRowsClear (buf : Buffer) : Prop :=
  ∀ s i, (buf.producers i).in_use = false → buf.producers_done s i = false

/-- The buffer fields that `unregister_consumer`'s per-slot loop can never
change, bundled for reuse. -/
def bufShape (b : Buffer) :
    Nat × (Nat → Nat) × Bool × (Nat → RoleRecord) × (Nat → Nat → Bool) ×
      (Nat → RoleRecord) × Nat × Nat × Bool × Nat × Nat × String × Nat :=
  (b.num_frames, b.frames, b.zero_frames, b.producers, b.producers_done,
    b.consumers, b.max_producers, b.max_consumers, b.shutdown_signal,
    b.frame_size, b.aligned_frame_size, b.buffer_name, b.last_arrival_time)

/-- A two-role, one-slot buffer as produced by
`create_buffer(1, 4, pool, "buf", "standard", node)` with capacity 1 in
each role table and storage pointers `100 + s`. -/
def c1Buf0 : Buffer :=
  { num_frames := 1, frame_size := 4, aligned_frame_size := 4, buffer_name := "buf",
    buffer_type := "standard", max_producers := 1, max_consumers := 1,
    is_full := fun _ => false, frames := fun s => 100 + s, metadata := fun _ => none,
    producers := fun _ => ⟨false, "", -1, -1⟩, consumers := fun _ => ⟨false, "", -1, -1⟩,
    producers_done := fun _ _ => false, consumers_done := fun _ _ => false,
    shutdown_signal := false, zero_frames := false, last_arrival_time := 0 }

/-- Register a producer and a consumer, then let the producer mark slot 0
full. -/
def c1Ops : List BufOp :=
  [.registerProducerOp "p", .registerConsumerOp "c", .markFullOp "p" 0 7]

/-- The state after the calls of `c1Ops` have returned. -/
def c1Final : Buffer :=
  match runOps (fun _ => 0) c1Buf0 c1Ops with
  | some (_, b) => b
  | none => c1Buf0

/-- A one-slot buffer whose only consumer "c" is registered, with slot 0
*not* full but already holding metadata container 7 (a producer is filling
it and called `allocate_new_metadata_object`). -/
def c2Buf : Buffer :=
  { num_frames := 1, frame_size := 4, aligned_frame_size := 4, buffer_name := "buf",
    buffer_type := "standard", max_producers := 1, max_consumers := 1,
    is_full := fun _ => false, frames := fun s => 100 + s,
    metadata := fun s => if s = 0 then some 7 else none,
    producers := fun _ => ⟨true, "p", -1, -1⟩,
    consumers := fun _ => ⟨true, "c", -1, -1⟩,
    producers_done := fun _ _ => false, consumers_done := fun _ _ => false,
    shutdown_signal := false, zero_frames := false, last_arrival_time := 0 }

/-- Reference counts for the `c2Buf` scenario: container 7 is live. -/
def c2Rc : Nat → Nat := fun c => if c = 7 then 1 else 0

/-- Result of unregistering the last consumer of `c2Buf`. -/
def c2Out : Buffer × (Nat → Nat) × Bool × List Nat :=
  match unregister_consumer c2Rc c2Buf "c" with
  | some out => out
  | none => (c2Buf, c2Rc, false, [])

/-- A one-slot buffer with a single registered producer "p", no consumer
registered, and metadata container 7 bound to slot 0. -/
def c3Buf : Buffer :=
  { num_frames := 1, frame_size := 4, aligned_frame_size := 4, buffer_name := "buf",
    buffer_type := "standard", max_producers := 1, max_consumers := 1,
    is_full := fun _ => false, frames := fun s => 200 + s,
    metadata := fun s => if s = 0 then some 7 else none,
    producers := fun _ => ⟨true, "p", -1, -1⟩, consumers := fun _ => ⟨false, "", -1, -1⟩,
    producers_done := fun _ _ => false, consumers_done := fun _ _ => false,
    shutdown_signal := false, zero_frames := false, last_arrival_time := 0 }

/-- Reference counts for the `c3Buf` scenario: container 7 is live. -/
def c3Rc : Nat → Nat := fun c => if c = 7 then 1 else 0

/-- A one-slot zero-on-release buffer whose slot 0 is full, with producer
"p" and consumer "c" registered and no done bits set. -/
def c4Buf : Buffer :=
  { num_frames := 1, frame_size := 4, aligned_frame_size := 4, buffer_name := "buf",
    buffer_type := "standard", max_producers := 1, max_consumers := 1,
    is_full := fun s => if s = 0 then true else false, frames := fun s => 300 + s,
    metadata := fun _ => none,
    producers := fun _ => ⟨true, "p", -1, -1⟩, consumers := fun _ => ⟨true, "c", 0, -1⟩,
    producers_done := fun _ _ => false, consumers_done := fun _ _ => false,
    shutdown_signal := false, zero_frames := true, last_arrival_time := 0 }

/-- A heap whose bytes are all 9, so zeroing is observable. -/
def c4Heap : Nat → Nat → Nat := fun _ _ => 9

/-- A one-slot buffer "A" with one producer and one consumer registered. -/
def c8BufA : Buffer :=
  { num_frames := 1, frame_size := 4, aligned_frame_size := 4, buffer_name := "A",
    buffer_type := "standard", max_producers := 1, max_consumers := 1,
    is_full := fun _ => false, frames := fun s => 400 + s, metadata := fun _ => none,
    producers := fun _ => ⟨true, "pa", -1, -1⟩, consumers := fun _ => ⟨true, "ca", -1, -1⟩,
    producers_done := fun _ _ => false, consumers_done := fun _ _ => false,
    shutdown_signal := false, zero_frames := false, last_arrival_time := 0 }

/-- A one-slot buffer "B" with one producer and one consumer registered and
distinct storage pointers. -/
def c8BufB : Buffer :=
  { num_frames := 1, frame_size := 4, aligned_frame_size := 4, buffer_name := "B",
    buffer_type := "standard", max_producers := 1, max_consumers := 1,
    is_full := fun _ => false, frames := fun s => 500 + s, metadata := fun _ => none,
    producers := fun _ => ⟨true, "pb", -1, -1⟩, consumers := fun _ => ⟨true, "cb", -1, -1⟩,
    producers_done := fun _ _ => false, consumers_done := fun _ _ => false,
    shutdown_signal := false, zero_frames := false, last_arrival_time := 0 }

/-- A one-slot buffer with exactly one producer "p" and one consumer "c"
registered and zero-on-release disabled. -/
def c9Buf : Buffer :=
  { num_frames := 1, frame_size := 4, aligned_frame_size := 4, buffer_name := "buf",
    buffer_type := "standard", max_producers := 1, max_consumers := 1,
    is_full := fun _ => false, frames := fun s => 600 + s, metadata := fun _ => none,
    producers := fun _ => ⟨true, "p", -1, -1⟩, consumers := fun _ => ⟨true, "c", -1, -1⟩,
    producers_done := fun _ _ => false, consumers_done := fun _ _ => false,
    shutdown_signal := false, zero_frames := false, last_arrival_time := 0 }

/-- A full fill/drain cycle on slot 0 of `c9Buf`, then a re-acquire. -/
def c9Ops : List BufOp :=
  [.waitEmptyOp "p" 0, .markFullOp "p" 0 3, .waitFullOp "c" 0,
    .markEmptyOp "c" 0, .waitEmptyOp "p" 0]

theorem private_consumers_done_iff (buf : Buffer) (id : Nat) :
    private_consumers_done buf id = true ↔
      ∀ i < buf.max_consumers,
        (buf.consumers i).in_use = true → buf.consumers_done id i = true := by
  simp only [private_consumers_done, List.all_eq_true, List.mem_range,
    Bool.not_eq_true', Bool.and_eq_false_imp, Bool.not_eq_false']

theorem private_consumers_done_eq_false_iff (buf : Buffer) (id : Nat) :
    private_consumers_done buf id = false ↔
      ∃ i, i < buf.max_consumers ∧ (buf.consumers i).in_use = true ∧
        buf.consumers_done id i = false := by
  rw [← Bool.not_eq_true, private_consumers_done_iff]
  push_neg
  constructor
  · rintro ⟨i, hi, hu, hd⟩
    exact ⟨i, hi, hu, by simpa using hd⟩
  · rintro ⟨i, hi, hu, hd⟩
    exact ⟨i, hi, hu, by simpa using hd⟩

theorem private_producers_done_iff (buf : Buffer) (id : Nat) :
    private_producers_done buf id = true ↔
      ∀ i < buf.max_producers,
        (buf.producers i).in_use = true → buf.producers_done id i = true := by
  simp only [private_producers_done, List.all_eq_true, List.mem_range,
    Bool.not_eq_true', Bool.and_eq_false_imp, Bool.not_eq_false']

/-- Congruence: the all-consumers-done predicate only looks at the consumer
capacity, the in-use flags and the slot's done row. -/
theorem private_consumers_done_congr {b b' : Buffer} {id : Nat}
    (hmax : b'.max_consumers = b.max_consumers)
    (hu : ∀ i, (b'.consumers i).in_use = (b.consumers i).in_use)
    (hd : ∀ i, b'.consumers_done id i = b.consumers_done id i) :
    private_consumers_done b' id = private_consumers_done b id := by
  unfold private_consumers_done
  rw [hmax]
  induction List.range b.max_consumers with
  | nil => rfl
  | cons x xs ih => simp only [List.all_cons, ih, hu x, hd x]

theorem private_get_producer_id_some {buf : Buffer} {name : String} {pid : Nat}
    (h : private_get_producer_id buf name = some pid) :
    pid < buf.max_producers ∧ (buf.producers pid).in_use = true := by
  unfold private_get_producer_id at h
  have hmem := List.mem_of_find?_eq_some h
  have hp := List.find?_some h
  simp only [List.mem_range] at hmem
  simp only [Bool.and_eq_true, beq_iff_eq] at hp
  exact ⟨hmem, hp.1⟩

theorem private_get_consumer_id_some {buf : Buffer} {name : String} {cid : Nat}
    (h : private_get_consumer_id buf name = some cid) :
    cid < buf.max_consumers ∧ (buf.consumers cid).in_use = true := by
  unfold private_get_consumer_id at h
  have hmem := List.mem_of_find?_eq_some h
  have hp := List.find?_some h
  simp only [List.mem_range] at hmem
  simp only [Bool.and_eq_true, beq_iff_eq] at hp
  exact ⟨hmem, hp.1⟩

theorem private_mark_producer_done_state {buf : Buffer} {name : String} {id : Nat}
    {buf1 : Buffer} (h : private_mark_producer_done buf name id = some buf1) :
    ∃ pid, private_get_producer_id buf name = some pid ∧
      buf.producers_done id pid = false ∧
      buf1 = { buf with
        producers := fun i =>
          if i = pid then { buf.producers i with last_frame_released := (id : Int) }
          else buf.producers i,
        producers_done := fun s i =>
          if s = id ∧ i = pid then true else buf.producers_done s i } := by
  unfold private_mark_producer_done at h
  split at h
  · exact absurd h (by simp)
  · rename_i pid hpid
    split at h
    · exact absurd h (by simp)
    · rename_i hbit
      exact ⟨pid, hpid, by simpa using hbit, by injection h with h; exact h.symm⟩

theorem private_mark_consumer_done_state {buf : Buffer} {name : String} {id : Nat}
    {buf1 : Buffer} (h : private_mark_consumer_done buf name id = some buf1) :
    ∃ cid, private_get_consumer_id buf name = some cid ∧
      buf.consumers_done id cid = false ∧
      buf1 = { buf with
        consumers := fun i =>
          if i = cid then { buf.consumers i with last_frame_released := (id : Int) }
          else buf.consumers i,
        consumers_done := fun s i =>
          if s = id ∧ i = cid then true else buf.consumers_done s i } := by
  unfold private_mark_consumer_done at h
  split at h
  · exact absurd h (by simp)
  · rename_i cid hcid
    split at h
    · exact absurd h (by simp)
    · rename_i hbit
      exact ⟨cid, hcid, by simpa using hbit, by injection h with h; exact h.symm⟩

theorem register_producer_state {buf : Buffer} {name : String} {buf' : Buffer}
    (h : register_producer buf name = some buf') :
    ∃ i0, (buf.producers i0).in_use = false ∧
      buf' = { buf with producers := fun i =>
        if i = i0 then ⟨true, name, -1, -1⟩ else buf.producers i } := by
  unfold register_producer at h
  split at h
  · exact absurd h (by simp)
  · split at h
    · rename_i i0 hfind
      have hp := List.find?_some hfind
      simp only [Bool.not_eq_true'] at hp
      exact ⟨i0, hp, by injection h with h; exact h.symm⟩
    · exact absurd h (by simp)

theorem register_consumer_state {buf : Buffer} {name : String} {buf' : Buffer}
    (h : register_consumer buf name = some buf') :
    ∃ i0, (buf.consumers i0).in_use = false ∧
      buf' = { buf with consumers := fun i =>
        if i = i0 then ⟨true, name, -1, -1⟩ else buf.consumers i } := by
  unfold register_consumer at h
  split at h
  · exact absurd h (by simp)
  · split at h
    · rename_i i0 hfind
      have hp := List.find?_some hfind
      simp only [Bool.not_eq_true'] at hp
      exact ⟨i0, hp, by injection h with h; exact h.symm⟩
    · exact absurd h (by simp)

theorem register_producer_preserves {buf : Buffer} {name : String} {buf' : Buffer}
    (h : register_producer buf name = some buf')
    (hInv : BufferInvariant buf) (hP2 : UnusedProducerRowsClear buf) :
    BufferInvariant buf' ∧ UnusedProducerRowsClear buf' := by
  obtain ⟨i0, hfree, rfl⟩ := register_producer_state h
  constructor
  · intro s hs hfull
    refine ⟨?_, (hInv s hs hfull).2⟩
    intro i hi hu
    by_cases hii : i = i0
    · subst hii
      exact hP2 s i hfree
    · simp only [hii, if_neg, ite_false] at hu
      exact (hInv s hs hfull).1 i hi hu
  · intro s i hu
    by_cases hii : i = i0
    · subst hii
      simp at hu
    · simp only [hii, ite_false] at hu
      exact hP2 s i hu

theorem register_consumer_preserves {buf : Buffer} {name : String} {buf' : Buffer}
    (h : register_consumer buf name = some buf')
    (hInv : BufferInvariant buf) (hP2 : UnusedProducerRowsClear buf) :
    BufferInvariant buf' ∧ UnusedProducerRowsClear buf' := by
  obtain ⟨i0, hfree, rfl⟩ := register_consumer_state h
  refine ⟨?_, hP2⟩
  intro s hs hfull
  refine ⟨(hInv s hs hfull).1, ?_⟩
  have hfalse := (hInv s hs hfull).2
  rw [private_consumers_done_eq_false_iff] at hfalse ⊢
  obtain ⟨i, hi, hu, hd⟩ := hfalse
  have hii : i ≠ i0 := by
    intro hcon
    rw [hcon, hfree] at hu
    exact Bool.false_ne_true hu
  exact ⟨i, hi, by simpa [hii] using hu, hd⟩

theorem release_slot_metadata_of_some {rc : Nat → Nat} {buf : Buffer} {id mc : Nat}
    (h : buf.metadata id = some mc) :
    release_slot_metadata rc buf id =
      ({ buf with metadata := fun s => if s = id then none else buf.metadata s },
        decrement_metadata_ref_count rc mc) := by
  unfold release_slot_metadata
  rw [h]

theorem release_slot_metadata_of_none {rc : Nat → Nat} {buf : Buffer} {id : Nat}
    (h : buf.metadata id = none) :
    release_slot_metadata rc buf id = (buf, rc) := by
  unfold release_slot_metadata
  rw [h]

/-- The buffer component of `release_slot_metadata` differs from its input
only in the (nulled) metadata entry of the slot. -/
theorem release_slot_metadata_fst (rc : Nat → Nat) (buf : Buffer) (id : Nat) :
    (release_slot_metadata rc buf id).1 =
      { buf with metadata := fun s => if s = id then none else buf.metadata s } := by
  cases hm : buf.metadata id with
  | none =>
    rw [release_slot_metadata_of_none hm]
    cases buf with
    | mk nf fs afs bn bt mp mc fl fr md pr co pd cd sh zf la =>
      simp only [Buffer.mk.injEq, and_true, true_and]
      funext s
      by_cases hs : s = id
      · rw [if_pos hs, hs]
        exact hm
      · simp [hs]
  | some mc => rw [release_slot_metadata_of_some hm]

theorem mark_full_drop_buf (rc : Nat → Nat) (b2 : Buffer) (id : Nat) :
    (mark_full_drop rc b2 id).buf =
      private_reset_consumers
        { b2 with
          is_full := fun s => if s = id then false else b2.is_full s,
          metadata := fun s => if s = id then none else b2.metadata s } id := by
  unfold mark_full_drop
  have hfst := release_slot_metadata_fst rc
      { b2 with is_full := fun s => if s = id then false else b2.is_full s } id
  rcases hr : release_slot_metadata rc
      { b2 with is_full := fun s => if s = id then false else b2.is_full s } id with ⟨b, rcx⟩
  rw [hr] at hfst
  exact congrArg (fun x => private_reset_consumers x id) hfst

theorem mark_full_drop_refcnt (rc : Nat → Nat) (b2 : Buffer) (id : Nat) :
    (mark_full_drop rc b2 id).refcnt =
      (release_slot_metadata rc
        { b2 with is_full := fun s => if s = id then false else b2.is_full s } id).2 := by
  unfold mark_full_drop
  rcases hr : release_slot_metadata rc
      { b2 with is_full := fun s => if s = id then false else b2.is_full s } id with ⟨b, rcx⟩
  simp only [hr]

theorem mark_full_drop_flags (rc : Nat → Nat) (b2 : Buffer) (id : Nat) :
    (mark_full_drop rc b2 id).set_full = true ∧ (mark_full_drop rc b2 id).set_empty = true := by
  unfold mark_full_drop
  rcases hr : release_slot_metadata rc
      { b2 with is_full := fun s => if s = id then false else b2.is_full s } id with ⟨b, rcx⟩
  exact ⟨rfl, rfl⟩

theorem mark_frame_full_preserves {rc : Nat → Nat} {buf : Buffer} {name : String}
    {id now : Nat} {r : MarkFullResult}
    (h : mark_frame_full rc buf name id now = some r)
    (hnf : buf.is_full id = false)
    (hInv : BufferInvariant buf) (hP2 : UnusedProducerRowsClear buf) :
    BufferInvariant r.buf ∧ UnusedProducerRowsClear r.buf := by
  unfold mark_frame_full at h
  split at h
  case isFalse => exact absurd h (by simp)
  rename_i hid
  split at h
  case h_1 => exact absurd h (by simp)
  rename_i buf1 hm
  obtain ⟨pid, hpid, hbit, hb1⟩ := private_mark_producer_done_state hm
  obtain ⟨hpidlt, hpiduse⟩ := private_get_producer_id_some hpid
  have b1_full : buf1.is_full = buf.is_full := by rw [hb1]
  have b1_pd : ∀ s i, buf1.producers_done s i =
      if s = id ∧ i = pid then true else buf.producers_done s i := by
    intro s i
    rw [hb1]
  have b1_pu : ∀ i, (buf1.producers i).in_use = (buf.producers i).in_use := by
    intro i
    rw [hb1]
    by_cases hip : i = pid <;> simp [hip]
  have b1_co : buf1.consumers = buf.consumers := by rw [hb1]
  have b1_cd : buf1.consumers_done = buf.consumers_done := by rw [hb1]
  have b1_nf : buf1.num_frames = buf.num_frames := by rw [hb1]
  have b1_mp : buf1.max_producers = buf.max_producers := by rw [hb1]
  have b1_mc : buf1.max_consumers = buf.max_consumers := by rw [hb1]
  split at h
  · rename_i hallp
    split at h
    · -- drop path: the slot ends up empty again with all rows reset
      rename_i hcd
      injection h with h
      subst h
      rw [mark_full_drop_buf]
      constructor
      · intro s hs hfull
        simp only [private_reset_consumers, mark_full_transition,
          private_reset_producers] at hs hfull ⊢
        by_cases hsid : s = id
        · subst hsid
          simp at hfull
        · simp only [hsid, if_false, ite_false] at hfull
          rw [b1_full] at hfull
          rw [b1_nf] at hs
          refine ⟨?_, ?_⟩
          · intro i hi hu
            simp only [hsid, if_false, ite_false]
            rw [b1_pd]
            simp only [hsid, false_and, if_false, ite_false]
            rw [b1_mp] at hi
            rw [b1_pu] at hu
            exact (hInv s hs hfull).1 i hi hu
          · rw [private_consumers_done_congr (b := buf)
              (by simpa using b1_mc)
              (fun i => by rw [b1_co])
              (fun i => by simp only [hsid, if_false, ite_false]; rw [b1_cd])]
            exact (hInv s hs hfull).2
      · intro s i hu
        simp only [private_reset_consumers, mark_full_transition,
          private_reset_producers] at hu ⊢
        rw [b1_pu] at hu
        by_cases hsid : s = id
        · simp [hsid]
        · simp only [hsid, if_false, ite_false]
          rw [b1_pd]
          rcases Decidable.em (s = id ∧ i = pid) with hsp | hsp
          · exact absurd hsp.1 hsid
          · rw [if_neg hsp]
            exact hP2 s i hu
    · -- the slot stays full: producer-done row freshly reset, not all consumers done
      rename_i hcd
      injection h with h
      subst h
      constructor
      · intro s hs hfull
        simp only [mark_full_transition, private_reset_producers] at hs hfull ⊢
        rw [b1_nf] at hs
        by_cases hsid : s = id
        · subst hsid
          refine ⟨fun i hi hu => by simp, ?_⟩
          rw [Bool.not_eq_true] at hcd
          exact hcd
        · simp only [hsid, if_false, ite_false] at hfull
          rw [b1_full] at hfull
          refine ⟨?_, ?_⟩
          · intro i hi hu
            simp only [hsid, if_false, ite_false]
            rw [b1_pd]
            simp only [hsid, false_and, if_false, ite_false]
            rw [b1_mp] at hi
            rw [b1_pu] at hu
            exact (hInv s hs hfull).1 i hi hu
          · rw [private_consumers_done_congr (b := buf)
              (by simpa using b1_mc)
              (fun i => by rw [b1_co])
              (fun i => by rw [b1_cd])]
            exact (hInv s hs hfull).2
      · intro s i hu
        simp only [mark_full_transition, private_reset_producers] at hu ⊢
        rw [b1_pu] at hu
        by_cases hsid : s = id
        · simp [hsid]
        · simp only [hsid, if_false, ite_false]
          rw [b1_pd]
          rcases Decidable.em (s = id ∧ i = pid) with hsp | hsp
          · exact absurd hsp.1 hsid
          · rw [if_neg hsp]
            exact hP2 s i hu
  · -- not all producers done yet: only this producer's bit was set, slot not full
    rename_i hallp
    injection h with h
    subst h
    constructor
    · intro s hs hfull
      rw [b1_nf] at hs
      rw [b1_full] at hfull
      have hsid : s ≠ id := fun hcon => by rw [hcon, hnf] at hfull; exact Bool.false_ne_true hfull
      refine ⟨?_, ?_⟩
      · intro i hi hu
        rw [b1_pd]
        rcases Decidable.em (s = id ∧ i = pid) with hsp | hsp
        · exact absurd hsp.1 hsid
        · rw [if_neg hsp]
          rw [b1_mp] at hi
          rw [b1_pu] at hu
          exact (hInv s hs hfull).1 i hi hu
      · rw [private_consumers_done_congr (b := buf)
          (by simpa using b1_mc)
          (fun i => by rw [b1_co])
          (fun i => by rw [b1_cd])]
        exact (hInv s hs hfull).2
    · intro s i hu
      rw [b1_pu] at hu
      rw [b1_pd]
      rcases Decidable.em (s = id ∧ i = pid) with hsp | hsp
      · rw [hsp.2] at hu
        rw [hpiduse] at hu
        exact absurd hu (by simp)
      · rw [if_neg hsp]
        exact hP2 s i hu

theorem private_mark_frame_empty_of_zero {rc : Nat → Nat} {buf : Buffer} {id : Nat}
    (hz : buf.zero_frames = true) :
    private_mark_frame_empty rc buf id =
      ⟨(release_slot_metadata rc buf id).1, (release_slot_metadata rc buf id).2,
        false, true⟩ := by
  unfold private_mark_frame_empty
  rw [hz]
  rcases hr : release_slot_metadata rc buf id with ⟨b, rcx⟩
  rfl

theorem private_mark_frame_empty_of_not_zero {rc : Nat → Nat} {buf : Buffer} {id : Nat}
    (hz : buf.zero_frames = false) :
    private_mark_frame_empty rc buf id =
      ⟨(release_slot_metadata rc (empty_transition buf id) id).1,
        (release_slot_metadata rc (empty_transition buf id) id).2, true, false⟩ := by
  unfold private_mark_frame_empty
  rw [hz]
  rcases hr : release_slot_metadata rc (empty_transition buf id) id with ⟨b, rcx⟩
  rfl

/-- `private_mark_frame_empty` never touches the geometry, the frame
pointers, the producer side, the consumer table, or the flags. -/
theorem private_mark_frame_empty_buf_shape (rc : Nat → Nat) (b : Buffer) (id : Nat) :
    (private_mark_frame_empty rc b id).buf.num_frames = b.num_frames ∧
    (private_mark_frame_empty rc b id).buf.frames = b.frames ∧
    (private_mark_frame_empty rc b id).buf.zero_frames = b.zero_frames ∧
    (private_mark_frame_empty rc b id).buf.producers = b.producers ∧
    (private_mark_frame_empty rc b id).buf.producers_done = b.producers_done ∧
    (private_mark_frame_empty rc b id).buf.consumers = b.consumers ∧
    (private_mark_frame_empty rc b id).buf.max_producers = b.max_producers ∧
    (private_mark_frame_empty rc b id).buf.max_consumers = b.max_consumers ∧
    (private_mark_frame_empty rc b id).buf.shutdown_signal = b.shutdown_signal ∧
    (private_mark_frame_empty rc b id).buf.frame_size = b.frame_size ∧
    (private_mark_frame_empty rc b id).buf.aligned_frame_size = b.aligned_frame_size ∧
    (private_mark_frame_empty rc b id).buf.buffer_name = b.buffer_name ∧
    (private_mark_frame_empty rc b id).buf.last_arrival_time = b.last_arrival_time := by
  cases hz : b.zero_frames with
  | true =>
    rw [private_mark_frame_empty_of_zero hz, release_slot_metadata_fst]
    exact ⟨rfl, rfl, hz, rfl, rfl, rfl, rfl, rfl, rfl, rfl, rfl, rfl, rfl⟩
  | false =>
    rw [private_mark_frame_empty_of_not_zero hz, release_slot_metadata_fst]
    exact ⟨rfl, rfl, hz, rfl, rfl, rfl, rfl, rfl, rfl, rfl, rfl, rfl, rfl⟩

/-- In the synchronous (no-zeroing) branch `private_mark_frame_empty`
clears the full flag and the consumer-done row of the slot, nulls its
metadata, reports a broadcast and spawns nothing. -/
theorem private_mark_frame_empty_not_zero_fields (rc : Nat → Nat) (b : Buffer) (id : Nat)
    (hz : b.zero_frames = false) :
    (private_mark_frame_empty rc b id).buf.is_full =
      (fun s => if s = id then false else b.is_full s) ∧
    (private_mark_frame_empty rc b id).buf.consumers_done =
      (fun s i => if s = id then false else b.consumers_done s i) ∧
    (private_mark_frame_empty rc b id).buf.metadata =
      (fun s => if s = id then none else b.metadata s) ∧
    (private_mark_frame_empty rc b id).broadcast = true ∧
    (private_mark_frame_empty rc b id).spawned = false := by
  rw [private_mark_frame_empty_of_not_zero hz, release_slot_metadata_fst]
  exact ⟨rfl, rfl, rfl, rfl, rfl⟩

/-- In the zeroing branch `private_mark_frame_empty` leaves the full flag
and the consumer-done row untouched (they are cleared later by the spawned
task), nulls the metadata, broadcasts nothing and spawns the task. -/
theorem private_mark_frame_empty_zero_fields (rc : Nat → Nat) (b : Buffer) (id : Nat)
    (hz : b.zero_frames = true) :
    (private_mark_frame_empty rc b id).buf.is_full = b.is_full ∧
    (private_mark_frame_empty rc b id).buf.consumers_done = b.consumers_done ∧
    (private_mark_frame_empty rc b id).buf.metadata =
      (fun s => if s = id then none else b.metadata s) ∧
    (private_mark_frame_empty rc b id).broadcast = false ∧
    (private_mark_frame_empty rc b id).spawned = true := by
  rw [private_mark_frame_empty_of_zero hz, release_slot_metadata_fst]
  exact ⟨rfl, rfl, rfl, rfl, rfl⟩

theorem mark_frame_empty_preserves {rc : Nat → Nat} {buf : Buffer} {name : String}
    {id : Nat} {r : MarkEmptyResult}
    (h : mark_frame_empty rc buf name id = some r)
    (hz : buf.zero_frames = false)
    (hInv : BufferInvariant buf) (hP2 : UnusedProducerRowsClear buf) :
    BufferInvariant r.buf ∧ UnusedProducerRowsClear r.buf := by
  unfold mark_frame_empty at h
  split at h
  case isFalse => exact absurd h (by simp)
  rename_i hid
  split at h
  case h_1 => exact absurd h (by simp)
  rename_i buf1 hm
  obtain ⟨cid, hcid, hbit, hb1⟩ := private_mark_consumer_done_state hm
  obtain ⟨hcidlt, hciduse⟩ := private_get_consumer_id_some hcid
  have b1_full : buf1.is_full = buf.is_full := by rw [hb1]
  have b1_cd : ∀ s i, buf1.consumers_done s i =
      if s = id ∧ i = cid then true else buf.consumers_done s i := by
    intro s i
    rw [hb1]
  have b1_cu : ∀ i, (buf1.consumers i).in_use = (buf.consumers i).in_use := by
    intro i
    rw [hb1]
    by_cases hic : i = cid <;> simp [hic]
  have b1_pr : buf1.producers = buf.producers := by rw [hb1]
  have b1_pd : buf1.producers_done = buf.producers_done := by rw [hb1]
  have b1_nf : buf1.num_frames = buf.num_frames := by rw [hb1]
  have b1_mp : buf1.max_producers = buf.max_producers := by rw [hb1]
  have b1_mc : buf1.max_consumers = buf.max_consumers := by rw [hb1]
  have b1_z : buf1.zero_frames = false := by rw [hb1]; exact hz
  split at h
  · -- all consumers now done: the synchronous empty transition runs
    rename_i hcd
    injection h with h
    subst h
    obtain ⟨e_full, e_cd, e_md, e_bc, e_sp⟩ :=
      private_mark_frame_empty_not_zero_fields rc buf1 id b1_z
    obtain ⟨s_nf, s_fr, s_z, s_pr, s_pd, s_co, s_mp, s_mc, s_sh, s_fs, s_afs, s_bn, s_la⟩ :=
      private_mark_frame_empty_buf_shape rc buf1 id
    constructor
    · intro s hs hfull
      rw [s_nf, b1_nf] at hs
      simp only [e_full] at hfull
      by_cases hsid : s = id
      · rw [if_pos hsid] at hfull
        exact absurd hfull (by simp)
      · rw [if_neg hsid] at hfull
        rw [b1_full] at hfull
        refine ⟨?_, ?_⟩
        · intro i hi hu
          rw [s_pd, b1_pd]
          rw [s_mp, b1_mp] at hi
          rw [s_pr] at hu
          rw [show buf1.producers i = buf.producers i from by rw [b1_pr]] at hu
          exact (hInv s hs hfull).1 i hi hu
        · rw [private_consumers_done_congr (b := buf)
            (by rw [s_mc, b1_mc])
            (fun i => by rw [s_co]; exact b1_cu i)
            (fun i => by
              rw [show (private_mark_frame_empty rc buf1 id).buf.consumers_done s i =
                  if s = id then false else buf1.consumers_done s i from by rw [e_cd]]
              rw [if_neg hsid, b1_cd]
              have : ¬(s = id ∧ i = cid) := fun hx => hsid hx.1
              rw [if_neg this])]
          exact (hInv s hs hfull).2
    · intro s i hu
      rw [s_pd, b1_pd]
      rw [s_pr] at hu
      rw [show buf1.producers i = buf.producers i from by rw [b1_pr]] at hu
      exact hP2 s i hu
  · -- not all consumers done: only this consumer's bit was set
    rename_i hcd
    injection h with h
    subst h
    constructor
    · intro s hs hfull
      rw [b1_nf] at hs
      rw [b1_full] at hfull
      refine ⟨?_, ?_⟩
      · intro i hi hu
        rw [b1_pd]
        rw [b1_mp] at hi
        rw [show buf1.producers i = buf.producers i from by rw [b1_pr]] at hu
        exact (hInv s hs hfull).1 i hi hu
      · by_cases hsid : s = id
        · subst hsid
          rw [Bool.not_eq_true] at hcd
          exact hcd
        · rw [private_consumers_done_congr (b := buf)
            (by rw [b1_mc]) b1_cu
            (fun i => by
              rw [b1_cd]
              have : ¬(s = id ∧ i = cid) := fun hx => hsid hx.1
              rw [if_neg this])]
          exact (hInv s hs hfull).2
    · intro s i hu
      rw [b1_pd]
      rw [show buf1.producers i = buf.producers i from by rw [b1_pr]] at hu
      exact hP2 s i hu

theorem private_mark_frame_empty_bufShape (rc : Nat → Nat) (b : Buffer) (id : Nat) :
    bufShape (private_mark_frame_empty rc b id).buf = bufShape b := by
  obtain ⟨h1, h2, h3, h4, h5, h6, h7, h8, h9, h10, h11, h12, h13⟩ :=
    private_mark_frame_empty_buf_shape rc b id
  simp only [bufShape, Prod.mk.injEq]
  exact ⟨h1, h2, h3, h4, h5, h6, h7, h8, h9, h10, h11, h12, h13⟩

theorem bufShape_fields {b b' : Buffer} (h : bufShape b' = bufShape b) :
    b'.num_frames = b.num_frames ∧ b'.frames = b.frames ∧
    b'.zero_frames = b.zero_frames ∧ b'.producers = b.producers ∧
    b'.producers_done = b.producers_done ∧ b'.consumers = b.consumers ∧
    b'.max_producers = b.max_producers ∧ b'.max_consumers = b.max_consumers ∧
    b'.shutdown_signal = b.shutdown_signal ∧ b'.frame_size = b.frame_size ∧
    b'.aligned_frame_size = b.aligned_frame_size ∧ b'.buffer_name = b.buffer_name ∧
    b'.last_arrival_time = b.last_arrival_time := by
  simp only [bufShape, Prod.mk.injEq] at h
  exact h

theorem unregister_loop_bufShape :
    ∀ (L : List Nat) (rc : Nat → Nat) (b : Buffer),
      bufShape (unregister_loop rc b L).1 = bufShape b := by
  intro L
  induction L with
  | nil =>
    intro rc b
    rfl
  | cons id rest ih =>
    intro rc b
    simp only [unregister_loop]
    by_cases hc : private_consumers_done b id = true
    · rw [if_pos hc]
      rcases hme : private_mark_frame_empty rc b id with ⟨b1, rc1, br1, sp1⟩
      rcases hrec : unregister_loop rc1 b1 rest with ⟨b2, rc2, br2, sp2⟩
      have h1 : bufShape b1 = bufShape b := by
        rw [show b1 = (private_mark_frame_empty rc b id).buf from by rw [hme]]
        exact private_mark_frame_empty_bufShape rc b id
      have h2 : bufShape b2 = bufShape b1 := by
        rw [show b2 = (unregister_loop rc1 b1 rest).1 from by rw [hrec]]
        exact ih rc1 b1
      exact h2.trans h1
    · rw [if_neg hc]
      exact ih rc b

/-- Behaviour of `unregister_consumer`'s per-slot loop when zero-on-release
is disabled: slots in the list whose consumers are all done are emptied
(full flag cleared, consumer row cleared, metadata nulled), every other
slot is untouched, the broadcast flag records whether any slot was emptied,
and no zeroing task is spawned. -/
theorem unregister_loop_spec :
    ∀ (L : List Nat) (rc : Nat → Nat) (b : Buffer),
      b.zero_frames = false → L.Nodup →
      (∀ s ∈ L,
        (private_consumers_done b s = true →
          (unregister_loop rc b L).1.is_full s = false ∧
          (∀ i, (unregister_loop rc b L).1.consumers_done s i = false) ∧
          (unregister_loop rc b L).1.metadata s = none) ∧
        (private_consumers_done b s = false →
          (unregister_loop rc b L).1.is_full s = b.is_full s ∧
          (∀ i, (unregister_loop rc b L).1.consumers_done s i = b.consumers_done s i) ∧
          (unregister_loop rc b L).1.metadata s = b.metadata s)) ∧
      (∀ s, s ∉ L →
        (unregister_loop rc b L).1.is_full s = b.is_full s ∧
        (∀ i, (unregister_loop rc b L).1.consumers_done s i = b.consumers_done s i) ∧
        (unregister_loop rc b L).1.metadata s = b.metadata s) ∧
      (unregister_loop rc b L).2.2.1 = L.any (fun s => private_consumers_done b s) ∧
      (unregister_loop rc b L).2.2.2 = [] := by
  intro L
  induction L with
  | nil =>
    intro rc b _ _
    refine ⟨fun s hs => absurd hs (List.not_mem_nil s), fun s _ => ⟨rfl, fun i => rfl, rfl⟩, rfl, rfl⟩
  | cons id rest ih =>
    intro rc b hz hnd
    rw [List.nodup_cons] at hnd
    obtain ⟨hid_rest, hnd_rest⟩ := hnd
    simp only [unregister_loop]
    by_cases hc : private_consumers_done b id = true
    · rw [if_pos hc]
      rcases hme : private_mark_frame_empty rc b id with ⟨b1, rc1, br1, sp1⟩
      rcases hrec : unregister_loop rc1 b1 rest with ⟨b2, rc2, br2, sp2⟩
      have hb1buf : b1 = (private_mark_frame_empty rc b id).buf := by rw [hme]
      obtain ⟨sh_nf, sh_fr, sh_z, sh_pr, sh_pd, sh_co, sh_mp, sh_mc, sh_sh, sh_fs,
        sh_afs, sh_bn, sh_la⟩ := bufShape_fields
          (hb1buf ▸ private_mark_frame_empty_bufShape rc b id)
      obtain ⟨e_full, e_cd, e_md, e_bc, e_sp⟩ :=
        private_mark_frame_empty_not_zero_fields rc b id hz
      have b1_full : ∀ s, b1.is_full s = if s = id then false else b.is_full s := by
        intro s
        rw [hb1buf, e_full]
      have b1_cd : ∀ s i, b1.consumers_done s i = if s = id then false else b.consumers_done s i := by
        intro s i
        rw [hb1buf, e_cd]
      have b1_md : ∀ s, b1.metadata s = if s = id then none else b.metadata s := by
        intro s
        rw [hb1buf, e_md]
      have hbr1 : br1 = true := by
        rw [show br1 = (private_mark_frame_empty rc b id).broadcast from by rw [hme], e_bc]
      have hsp1 : sp1 = false := by
        rw [show sp1 = (private_mark_frame_empty rc b id).spawned from by rw [hme], e_sp]
      have hz1 : b1.zero_frames = false := by rw [sh_z]; exact hz
      have hpred : ∀ s, s ≠ id → private_consumers_done b1 s = private_consumers_done b s := by
        intro s hs
        refine private_consumers_done_congr (by rw [sh_mc]) (fun i => by rw [sh_co]) ?_
        intro i
        rw [b1_cd, if_neg hs]
      obtain ⟨ih_mem, ih_out, ih_br, ih_sp⟩ := ih rc1 b1 hz1 hnd_rest
      rw [hrec] at ih_mem ih_out ih_br ih_sp
      have hb2 : ∀ s, s ∈ rest ∨ ¬ s ∈ rest → True := fun _ _ => trivial
      refine ⟨?_, ?_, ?_, ?_⟩
      · intro s hs
        rcases List.mem_cons.mp hs with hsid | hsrest
        · subst hsid
          have hout := ih_out s hid_rest
          constructor
          · intro _
            refine ⟨?_, ?_, ?_⟩
            · rw [hout.1, b1_full, if_pos rfl]
            · intro i
              rw [hout.2.1 i, b1_cd, if_pos rfl]
            · rw [hout.2.2, b1_md, if_pos rfl]
          · intro hcon
            rw [hc] at hcon
            exact absurd hcon (by simp)
        · have hsnid : s ≠ id := fun hcon => hid_rest (hcon ▸ hsrest)
          have hmem := ih_mem s hsrest
          constructor
          · intro htrue
            have h1 := hmem.1 (by rw [hpred s hsnid]; exact htrue)
            exact h1
          · intro hfalse
            have h1 := hmem.2 (by rw [hpred s hsnid]; exact hfalse)
            refine ⟨?_, ?_, ?_⟩
            · rw [h1.1, b1_full, if_neg hsnid]
            · intro i
              rw [h1.2.1 i, b1_cd, if_neg hsnid]
            · rw [h1.2.2, b1_md, if_neg hsnid]
      · intro s hs
        have hsnid : s ≠ id := fun hcon => hs (hcon ▸ List.mem_cons_self id rest)
        have hsrest : ¬ s ∈ rest := fun hcon => hs (List.mem_cons_of_mem id hcon)
        have h1 := ih_out s hsrest
        refine ⟨?_, ?_, ?_⟩
        · rw [h1.1, b1_full, if_neg hsnid]
        · intro i
          rw [h1.2.1 i, b1_cd, if_neg hsnid]
        · rw [h1.2.2, b1_md, if_neg hsnid]
      · rw [hbr1]
        simp [List.any_cons, hc]
      · rw [hsp1]
        have hsp2 : sp2 = [] := ih_sp
        simp [hsp2]
    · rw [if_neg hc]
      have hcf : private_consumers_done b id = false := by
        rw [← Bool.not_eq_true]
        exact hc
      obtain ⟨ih_mem, ih_out, ih_br, ih_sp⟩ := ih rc b hz hnd_rest
      refine ⟨?_, ?_, ?_, ?_⟩
      · intro s hs
        rcases List.mem_cons.mp hs with hsid | hsrest
        · subst hsid
          constructor
          · intro hcon
            rw [hcf] at hcon
            exact absurd hcon (by simp)
          · intro _
            exact ih_out s hid_rest
        · exact ih_mem s hsrest
      · intro s hs
        exact ih_out s fun hcon => hs (List.mem_cons_of_mem id hcon)
      · rw [ih_br]
        simp [List.any_cons, hcf]
      · exact ih_sp

theorem unregister_consumer_state {rc : Nat → Nat} {buf : Buffer} {name : String}
    {out : Buffer × (Nat → Nat) × Bool × List Nat}
    (h : unregister_consumer rc buf name = some out) :
    ∃ cid, private_get_consumer_id buf name = some cid ∧
      out = unregister_loop rc
        { buf with consumers := fun i =>
            if i = cid then { buf.consumers i with in_use := false, name := "unregistered" }
            else buf.consumers i }
        (List.range buf.num_frames) := by
  unfold unregister_consumer at h
  split at h
  · exact absurd h (by simp)
  · rename_i cid hcid
    exact ⟨cid, hcid, by injection h with h; exact h.symm⟩

theorem unregister_consumer_preserves {rc : Nat → Nat} {buf : Buffer} {name : String}
    {out : Buffer × (Nat → Nat) × Bool × List Nat}
    (h : unregister_consumer rc buf name = some out)
    (hz : buf.zero_frames = false)
    (hInv : BufferInvariant buf) (hP2 : UnusedProducerRowsClear buf) :
    BufferInvariant out.1 ∧ UnusedProducerRowsClear out.1 := by
  obtain ⟨cid, hcid, hout⟩ := unregister_consumer_state h
  obtain ⟨hcidlt, hciduse⟩ := private_get_consumer_id_some hcid
  subst hout
  obtain ⟨sh_nf, sh_fr, sh_z, sh_pr, sh_pd, sh_co, sh_mp, sh_mc, sh_sh, sh_fs,
    sh_afs, sh_bn, sh_la⟩ := bufShape_fields (unregister_loop_bufShape (List.range buf.num_frames) rc
      { buf with consumers := fun i =>
          if i = cid then { buf.consumers i with in_use := false, name := "unregistered" }
          else buf.consumers i })
  obtain ⟨sp_mem, sp_out, sp_br, sp_sp⟩ := unregister_loop_spec (List.range buf.num_frames) rc
    { buf with consumers := fun i =>
        if i = cid then { buf.consumers i with in_use := false, name := "unregistered" }
        else buf.consumers i } hz (List.nodup_range _)
  constructor
  · intro s hs hfull
    rw [sh_nf] at hs
    have hsrange : s ∈ List.range buf.num_frames := List.mem_range.mpr hs
    by_cases hc : private_consumers_done
        { buf with consumers := fun i =>
            if i = cid then { buf.consumers i with in_use := false, name := "unregistered" }
            else buf.consumers i } s = true
    · rw [((sp_mem s hsrange).1 hc).1] at hfull
      exact absurd hfull (by simp)
    · rw [Bool.not_eq_true] at hc
      have hsp := (sp_mem s hsrange).2 hc
      rw [hsp.1] at hfull
      refine ⟨?_, ?_⟩
      · intro i hi hu
        rw [sh_pd]
        rw [sh_mp] at hi
        rw [show ((unregister_loop rc _ (List.range buf.num_frames)).1.producers i) =
            buf.producers i from by rw [sh_pr]] at hu
        exact (hInv s hs hfull).1 i hi hu
      · rw [private_consumers_done_congr (b :=
          { buf with consumers := fun i =>
              if i = cid then { buf.consumers i with in_use := false, name := "unregistered" }
              else buf.consumers i })
          (by rw [sh_mc])
          (fun i => by rw [sh_co])
          (fun i => hsp.2.1 i)]
        exact hc
  · intro s i hu
    rw [sh_pd]
    rw [show ((unregister_loop rc _ (List.range buf.num_frames)).1.producers i) =
        buf.producers i from by rw [sh_pr]] at hu
    exact hP2 s i hu

theorem wait_for_empty_frame_cases {buf : Buffer} {name : String} {id : Nat}
    {o : WaitOutcome} (h : wait_for_empty_frame buf name id = some o) :
    o = .blocked ∨ o = .shutdownNull buf ∨
    ∃ pid, private_get_producer_id buf name = some pid ∧
      o = .got (buf.frames id)
        { buf with producers := fun i =>
            if i = pid then { buf.producers i with last_frame_acquired := (id : Int) }
            else buf.producers i } := by
  unfold wait_for_empty_frame at h
  split at h
  case isFalse => exact absurd h (by simp)
  split at h
  case h_1 => exact absurd h (by simp)
  rename_i pid hpid
  split at h
  · exact Or.inr (Or.inl (Option.some.inj h).symm)
  split at h
  · exact Or.inl (Option.some.inj h).symm
  · exact Or.inr (Or.inr ⟨pid, hpid, (Option.some.inj h).symm⟩)

theorem wait_for_full_frame_cases {buf : Buffer} {name : String} {id : Nat}
    {o : WaitOutcome} (h : wait_for_full_frame buf name id = some o) :
    o = .blocked ∨ o = .shutdownNull buf ∨
    ∃ cid, private_get_consumer_id buf name = some cid ∧
      o = .got (buf.frames id)
        { buf with consumers := fun i =>
            if i = cid then { buf.consumers i with last_frame_acquired := (id : Int) }
            else buf.consumers i } := by
  unfold wait_for_full_frame at h
  split at h
  case h_1 => exact absurd h (by simp)
  rename_i cid hcid
  split at h
  · exact Or.inr (Or.inl (Option.some.inj h).symm)
  split at h
  · exact Or.inl (Option.some.inj h).symm
  · exact Or.inr (Or.inr ⟨cid, hcid, (Option.some.inj h).symm⟩)

theorem wait_for_full_frame_timeout_cases {buf : Buffer} {name : String} {id : Nat}
    {st : TimedWaitOutcome} {b : Buffer}
    (h : wait_for_full_frame_timeout buf name id = some (st, b)) :
    b = buf ∨
    ∃ cid, private_get_consumer_id buf name = some cid ∧
      b = { buf with consumers := fun i =>
          if i = cid then { buf.consumers i with last_frame_acquired := (id : Int) }
          else buf.consumers i } := by
  unfold wait_for_full_frame_timeout at h
  split at h
  case h_1 => exact absurd h (by simp)
  rename_i cid hcid
  split at h
  · exact Or.inl ((Prod.mk.inj (Option.some.inj h)).2).symm
  split at h
  · exact Or.inr ⟨cid, hcid, ((Prod.mk.inj (Option.some.inj h)).2).symm⟩
  · exact Or.inl ((Prod.mk.inj (Option.some.inj h)).2).symm

theorem allocate_new_metadata_object_cases {rc : Nat → Nat} {buf : Buffer} {id : Nat}
    {fresh? : Option Nat} {b : Buffer} {rc1 : Nat → Nat}
    (h : allocate_new_metadata_object rc buf id fresh? = some (b, rc1)) :
    b = buf ∨
    ∃ fresh, b = { buf with
      metadata := fun s => if s = id then some fresh else buf.metadata s } := by
  unfold allocate_new_metadata_object at h
  split at h
  case isFalse => exact absurd h (by simp)
  split at h
  · exact Or.inl ((Prod.mk.inj (Option.some.inj h)).1).symm
  · split at h
    case h_1 => exact absurd h (by simp)
    rename_i fresh
    exact Or.inr ⟨fresh, ((Prod.mk.inj (Option.some.inj h)).1).symm⟩

/-- Updating only producer records without touching their in-use flags
keeps the invariant. -/
theorem inv_preserved_producers_touch {buf : Buffer} {f : Nat → RoleRecord}
    (hf : ∀ i, (f i).in_use = (buf.producers i).in_use)
    (hInv : BufferInvariant buf) (hP2 : UnusedProducerRowsClear buf) :
    BufferInvariant { buf with producers := f } ∧
    UnusedProducerRowsClear { buf with producers := f } := by
  constructor
  · intro s hs hfull
    refine ⟨fun i hi hu => (hInv s hs hfull).1 i hi (by rw [← hf i]; exact hu), ?_⟩
    exact (hInv s hs hfull).2
  · intro s i hu
    exact hP2 s i (by rw [← hf i]; exact hu)

/-- Updating only consumer records without touching their in-use flags
keeps the invariant. -/
theorem inv_preserved_consumers_touch {buf : Buffer} {f : Nat → RoleRecord}
    (hf : ∀ i, (f i).in_use = (buf.consumers i).in_use)
    (hInv : BufferInvariant buf) (hP2 : UnusedProducerRowsClear buf) :
    BufferInvariant { buf with consumers := f } ∧
    UnusedProducerRowsClear { buf with consumers := f } := by
  constructor
  · intro s hs hfull
    refine ⟨(hInv s hs hfull).1, ?_⟩
    have hcg : private_consumers_done { buf with consumers := f } s =
        private_consumers_done buf s :=
      private_consumers_done_congr rfl hf (fun i => rfl)
    rw [hcg]
    exact (hInv s hs hfull).2
  · exact hP2

theorem applyOp_preserves {rc : Nat → Nat} {buf : Buffer} {op : BufOp}
    {rc' : Nat → Nat} {buf' : Buffer}
    (h : applyOp rc buf op = some (rc', buf'))
    (hd : producer_disciplined buf op)
    (hz : buf.zero_frames = false)
    (hInv : BufferInvariant buf) (hP2 : UnusedProducerRowsClear buf) :
    BufferInvariant buf' ∧ UnusedProducerRowsClear buf' := by
  cases op with
  | registerProducerOp name =>
    simp only [applyOp] at h
    split at h
    case h_1 => exact absurd h (by simp)
    rename_i b hb
    injection h with h
    obtain ⟨h1, h2⟩ := Prod.mk.inj h
    subst h2
    exact register_producer_preserves hb hInv hP2
  | registerConsumerOp name =>
    simp only [applyOp] at h
    split at h
    case h_1 => exact absurd h (by simp)
    rename_i b hb
    injection h with h
    obtain ⟨h1, h2⟩ := Prod.mk.inj h
    subst h2
    exact register_consumer_preserves hb hInv hP2
  | unregisterConsumerOp name =>
    simp only [applyOp] at h
    split at h
    case h_1 => exact absurd h (by simp)
    rename_i b rc1 br sp hb
    injection h with h
    obtain ⟨h1, h2⟩ := Prod.mk.inj h
    subst h2
    exact unregister_consumer_preserves hb hz hInv hP2
  | markFullOp name id now =>
    simp only [applyOp] at h
    split at h
    case h_1 => exact absurd h (by simp)
    rename_i r hr
    injection h with h
    obtain ⟨h1, h2⟩ := Prod.mk.inj h
    subst h2
    exact mark_frame_full_preserves hr hd hInv hP2
  | markEmptyOp name id =>
    simp only [applyOp] at h
    split at h
    case h_1 => exact absurd h (by simp)
    rename_i r hr
    injection h with h
    obtain ⟨h1, h2⟩ := Prod.mk.inj h
    subst h2
    exact mark_frame_empty_preserves hr hz hInv hP2
  | waitEmptyOp name id =>
    simp only [applyOp] at h
    split at h
    case h_1 => exact absurd h (by simp)
    case h_2 =>
      rename_i f b heq
      injection h with h
      obtain ⟨h1, h2⟩ := Prod.mk.inj h
      subst h2
      rcases wait_for_empty_frame_cases heq with hcase | hcase | ⟨pid, hpid, hcase⟩
      · exact absurd hcase (by simp)
      · exact absurd hcase (by simp)
      · injection hcase with hf hb
        rw [hb]
        exact inv_preserved_producers_touch
          (fun i => by by_cases hip : i = pid <;> simp [hip]) hInv hP2
    case h_3 =>
      rename_i b heq
      injection h with h
      obtain ⟨h1, h2⟩ := Prod.mk.inj h
      subst h2
      rcases wait_for_empty_frame_cases heq with hcase | hcase | ⟨pid, hpid, hcase⟩
      · exact absurd hcase (by simp)
      · injection hcase with hb
        rw [hb]
        exact ⟨hInv, hP2⟩
      · exact absurd hcase (by simp)
    case h_4 =>
      rename_i heq
      injection h with h
      obtain ⟨h1, h2⟩ := Prod.mk.inj h
      subst h2
      exact ⟨hInv, hP2⟩
  | waitFullOp name id =>
    simp only [applyOp] at h
    split at h
    case h_1 => exact absurd h (by simp)
    case h_2 =>
      rename_i f b heq
      injection h with h
      obtain ⟨h1, h2⟩ := Prod.mk.inj h
      subst h2
      rcases wait_for_full_frame_cases heq with hcase | hcase | ⟨cid, hcid, hcase⟩
      · exact absurd hcase (by simp)
      · exact absurd hcase (by simp)
      · injection hcase with hf hb
        rw [hb]
        exact inv_preserved_consumers_touch
          (fun i => by by_cases hic : i = cid <;> simp [hic]) hInv hP2
    case h_3 =>
      rename_i b heq
      injection h with h
      obtain ⟨h1, h2⟩ := Prod.mk.inj h
      subst h2
      rcases wait_for_full_frame_cases heq with hcase | hcase | ⟨cid, hcid, hcase⟩
      · exact absurd hcase (by simp)
      · injection hcase with hb
        rw [hb]
        exact ⟨hInv, hP2⟩
      · exact absurd hcase (by simp)
    case h_4 =>
      rename_i heq
      injection h with h
      obtain ⟨h1, h2⟩ := Prod.mk.inj h
      subst h2
      exact ⟨hInv, hP2⟩
  | waitFullTimeoutOp name id =>
    simp only [applyOp] at h
    split at h
    case h_1 => exact absurd h (by simp)
    rename_i st b heq
    injection h with h
    obtain ⟨h1, h2⟩ := Prod.mk.inj h
    subst h2
    rcases wait_for_full_frame_timeout_cases heq with hb | ⟨cid, hcid, hb⟩
    · rw [hb]
      exact ⟨hInv, hP2⟩
    · rw [hb]
      exact inv_preserved_consumers_touch
        (fun i => by by_cases hic : i = cid <;> simp [hic]) hInv hP2
  | allocMetadataOp id fresh? =>
    simp only [applyOp] at h
    split at h
    case h_1 => exact absurd h (by simp)
    rename_i b rc1 heq
    injection h with h
    obtain ⟨h1, h2⟩ := Prod.mk.inj h
    subst h2
    rcases allocate_new_metadata_object_cases heq with hb | ⟨fresh, hb⟩
    · rw [hb]
      exact ⟨hInv, hP2⟩
    · rw [hb]
      exact ⟨hInv, hP2⟩
  | zeroFramesOp =>
    simp only [applyOp] at h
    injection h with h
    obtain ⟨h1, h2⟩ := Prod.mk.inj h
    subst h2
    exact ⟨hInv, hP2⟩
  | sendShutdownOp =>
    simp only [applyOp] at h
    injection h with h
    obtain ⟨h1, h2⟩ := Prod.mk.inj h
    subst h2
    exact ⟨hInv, hP2⟩

theorem mark_frame_full_skeleton {rc : Nat → Nat} {buf : Buffer} {name : String}
    {id now : Nat} {r : MarkFullResult}
    (h : mark_frame_full rc buf name id now = some r) :
    r.buf.frames = buf.frames ∧ r.buf.zero_frames = buf.zero_frames := by
  unfold mark_frame_full at h
  split at h
  case isFalse => exact absurd h (by simp)
  split at h
  case h_1 => exact absurd h (by simp)
  rename_i buf1 hm
  obtain ⟨pid, hpid, hbit, hb1⟩ := private_mark_producer_done_state hm
  subst hb1
  split at h
  · split at h
    · injection h with h
      subst h
      rw [mark_full_drop_buf]
      exact ⟨rfl, rfl⟩
    · injection h with h
      subst h
      exact ⟨rfl, rfl⟩
  · injection h with h
    subst h
    exact ⟨rfl, rfl⟩

theorem mark_frame_empty_skeleton {rc : Nat → Nat} {buf : Buffer} {name : String}
    {id : Nat} {r : MarkEmptyResult}
    (h : mark_frame_empty rc buf name id = some r) :
    r.buf.frames = buf.frames ∧ r.buf.zero_frames = buf.zero_frames := by
  unfold mark_frame_empty at h
  split at h
  case isFalse => exact absurd h (by simp)
  split at h
  case h_1 => exact absurd h (by simp)
  rename_i buf1 hm
  obtain ⟨cid, hcid, hbit, hb1⟩ := private_mark_consumer_done_state hm
  subst hb1
  split at h
  · injection h with h
    subst h
    obtain ⟨_, s_fr, s_z, _⟩ := private_mark_frame_empty_buf_shape rc _ id
    exact ⟨s_fr, s_z⟩
  · injection h with h
    subst h
    exact ⟨rfl, rfl⟩

/-- No public call moves a slot's backing-storage pointer, and the
zero-on-release flag can only be switched on (by `zero_frames`), never
recycled back off. -/
theorem applyOp_skeleton {rc : Nat → Nat} {buf : Buffer} {op : BufOp}
    {rc' : Nat → Nat} {buf' : Buffer}
    (h : applyOp rc buf op = some (rc', buf')) :
    buf'.frames = buf.frames ∧
    (buf'.zero_frames = buf.zero_frames ∨ buf'.zero_frames = true) := by
  cases op with
  | registerProducerOp name =>
    simp only [applyOp] at h
    split at h
    case h_1 => exact absurd h (by simp)
    rename_i b hb
    injection h with h
    obtain ⟨h1, h2⟩ := Prod.mk.inj h
    subst h2
    obtain ⟨i0, hfree, rfl⟩ := register_producer_state hb
    exact ⟨rfl, Or.inl rfl⟩
  | registerConsumerOp name =>
    simp only [applyOp] at h
    split at h
    case h_1 => exact absurd h (by simp)
    rename_i b hb
    injection h with h
    obtain ⟨h1, h2⟩ := Prod.mk.inj h
    subst h2
    obtain ⟨i0, hfree, rfl⟩ := register_consumer_state hb
    exact ⟨rfl, Or.inl rfl⟩
  | unregisterConsumerOp name =>
    simp only [applyOp] at h
    split at h
    case h_1 => exact absurd h (by simp)
    rename_i b rc1 br sp hb
    injection h with h
    obtain ⟨h1, h2⟩ := Prod.mk.inj h
    subst h2
    obtain ⟨cid, hcid, hout⟩ := unregister_consumer_state hb
    have hb2 : b = (unregister_loop rc
        { buf with consumers := fun i =>
            if i = cid then { buf.consumers i with in_use := false, name := "unregistered" }
            else buf.consumers i }
        (List.range buf.num_frames)).1 := by rw [← hout]
    obtain ⟨_, sh_fr, sh_z, _⟩ := bufShape_fields
      (unregister_loop_bufShape (List.range buf.num_frames) rc
        { buf with consumers := fun i =>
            if i = cid then { buf.consumers i with in_use := false, name := "unregistered" }
            else buf.consumers i })
    rw [hb2]
    exact ⟨sh_fr, Or.inl sh_z⟩
  | markFullOp name id now =>
    simp only [applyOp] at h
    split at h
    case h_1 => exact absurd h (by simp)
    rename_i r hr
    injection h with h
    obtain ⟨h1, h2⟩ := Prod.mk.inj h
    subst h2
    obtain ⟨hfr, hzf⟩ := mark_frame_full_skeleton hr
    exact ⟨hfr, Or.inl hzf⟩
  | markEmptyOp name id =>
    simp only [applyOp] at h
    split at h
    case h_1 => exact absurd h (by simp)
    rename_i r hr
    injection h with h
    obtain ⟨h1, h2⟩ := Prod.mk.inj h
    subst h2
    obtain ⟨hfr, hzf⟩ := mark_frame_empty_skeleton hr
    exact ⟨hfr, Or.inl hzf⟩
  | waitEmptyOp name id =>
    simp only [applyOp] at h
    split at h
    case h_1 => exact absurd h (by simp)
    case h_2 =>
      rename_i f b heq
      injection h with h
      obtain ⟨h1, h2⟩ := Prod.mk.inj h
      subst h2
      rcases wait_for_empty_frame_cases heq with hcase | hcase | ⟨pid, hpid, hcase⟩
      · exact absurd hcase (by simp)
      · exact absurd hcase (by simp)
      · injection hcase with hf hb
        rw [hb]
        exact ⟨rfl, Or.inl rfl⟩
    case h_3 =>
      rename_i b heq
      injection h with h
      obtain ⟨h1, h2⟩ := Prod.mk.inj h
      subst h2
      rcases wait_for_empty_frame_cases heq with hcase | hcase | ⟨pid, hpid, hcase⟩
      · exact absurd hcase (by simp)
      · injection hcase with hb
        rw [hb]
        exact ⟨rfl, Or.inl rfl⟩
      · exact absurd hcase (by simp)
    case h_4 =>
      rename_i heq
      injection h with h
      obtain ⟨h1, h2⟩ := Prod.mk.inj h
      subst h2
      exact ⟨rfl, Or.inl rfl⟩
  | waitFullOp name id =>
    simp only [applyOp] at h
    split at h
    case h_1 => exact absurd h (by simp)
    case h_2 =>
      rename_i f b heq
      injection h with h
      obtain ⟨h1, h2⟩ := Prod.mk.inj h
      subst h2
      rcases wait_for_full_frame_cases heq with hcase | hcase | ⟨cid, hcid, hcase⟩
      · exact absurd hcase (by simp)
      · exact absurd hcase (by simp)
      · injection hcase with hf hb
        rw [hb]
        exact ⟨rfl, Or.inl rfl⟩
    case h_3 =>
      rename_i b heq
      injection h with h
      obtain ⟨h1, h2⟩ := Prod.mk.inj h
      subst h2
      rcases wait_for_full_frame_cases heq with hcase | hcase | ⟨cid, hcid, hcase⟩
      · exact absurd hcase (by simp)
      · injection hcase with hb
        rw [hb]
        exact ⟨rfl, Or.inl rfl⟩
      · exact absurd hcase (by simp)
    case h_4 =>
      rename_i heq
      injection h with h
      obtain ⟨h1, h2⟩ := Prod.mk.inj h
      subst h2
      exact ⟨rfl, Or.inl rfl⟩
  | waitFullTimeoutOp name id =>
    simp only [applyOp] at h
    split at h
    case h_1 => exact absurd h (by simp)
    rename_i st b heq
    injection h with h
    obtain ⟨h1, h2⟩ := Prod.mk.inj h
    subst h2
    rcases wait_for_full_frame_timeout_cases heq with hb | ⟨cid, hcid, hb⟩ <;>
      rw [hb] <;> exact ⟨rfl, Or.inl rfl⟩
  | allocMetadataOp id fresh? =>
    simp only [applyOp] at h
    split at h
    case h_1 => exact absurd h (by simp)
    rename_i b rc1 heq
    injection h with h
    obtain ⟨h1, h2⟩ := Prod.mk.inj h
    subst h2
    rcases allocate_new_metadata_object_cases heq with hb | ⟨fresh, hb⟩ <;>
      rw [hb] <;> exact ⟨rfl, Or.inl rfl⟩
  | zeroFramesOp =>
    simp only [applyOp] at h
    injection h with h
    obtain ⟨h1, h2⟩ := Prod.mk.inj h
    subst h2
    exact ⟨rfl, Or.inr rfl⟩
  | sendShutdownOp =>
    simp only [applyOp] at h
    injection h with h
    obtain ⟨h1, h2⟩ := Prod.mk.inj h
    subst h2
    exact ⟨rfl, Or.inl rfl⟩

theorem create_buffer_state {num_frames frame_size : Nat} {nm ty : String}
    {mp mc : Nat} {fp : Nat → Nat} {buf0 : Buffer}
    (h : create_buffer num_frames frame_size nm ty mp mc fp = some buf0) :
    0 < num_frames ∧
    buf0.is_full = (fun _ => false) ∧
    buf0.producers_done = (fun _ _ => false) ∧
    buf0.consumers_done = (fun _ _ => false) ∧
    buf0.zero_frames = false ∧ buf0.shutdown_signal = false ∧
    buf0.frames = fp ∧ buf0.metadata = (fun _ => none) := by
  unfold create_buffer at h
  split at h
  · rename_i hpos
    injection h with h
    subst h
    exact ⟨hpos, rfl, rfl, rfl, rfl, rfl, rfl, rfl⟩
  · exact absurd h (by simp)

/-- A freshly created buffer satisfies the invariant. -/
theorem create_buffer_invariant {num_frames frame_size : Nat} {nm ty : String}
    {mp mc : Nat} {fp : Nat → Nat} {buf0 : Buffer}
    (h : create_buffer num_frames frame_size nm ty mp mc fp = some buf0) :
    BufferInvariant buf0 ∧ UnusedProducerRowsClear buf0 := by
  obtain ⟨_, hfull, hpd, _⟩ := create_buffer_state h
  constructor
  · intro s hs hf
    rw [hfull] at hf
    exact absurd hf (by simp)
  · intro s i _
    rw [hpd]

theorem DisciplinedRun_invariant {rc0 : Nat → Nat} {buf0 : Buffer} {ops : List BufOp}
    {rc : Nat → Nat} {buf : Buffer}
    (hrun : DisciplinedRun rc0 buf0 ops rc buf)
    (hJ : buf0.zero_frames = false → BufferInvariant buf0 ∧ UnusedProducerRowsClear buf0) :
    buf.zero_frames = false → BufferInvariant buf ∧ UnusedProducerRowsClear buf := by
  induction hrun with
  | nil => exact hJ
  | cons hd hstep hrest ih =>
    apply ih
    intro hz1
    rename_i rcx bufx op rc1 b1 opsx rc2 b2
    rcases (applyOp_skeleton hstep).2 with hflag | hflag
    · have hz0 : bufx.zero_frames = false := by rw [← hflag]; exact hz1
      obtain ⟨hInv, hP2⟩ := hJ hz0
      exact applyOp_preserves hstep hd hz0 hInv hP2
    · rw [hz1] at hflag
      exact absurd hflag (by simp)

/-- C1, counterexample: after `register_producer("p")`,
`register_consumer("c")` and `mark_frame_full("p", 0)` return, slot 0 is
full, producer row 0 is registered, yet its producer-done bit for slot 0 is
clear — `mark_frame_full` resets the producer-done row on the transition to
full (line 196), so the claimed "every registered producer has its done bit
set for s" is false on the code. -/
theorem c1_counterexample :
    runOps (fun _ => 0) c1Buf0 c1Ops = some ((fun _ => 0), c1Final) ∧
    0 < c1Final.num_frames ∧ c1Final.is_full 0 = true ∧
    0 < c1Final.max_producers ∧ (c1Final.producers 0).in_use = true ∧
    c1Final.producers_done 0 0 = false := by
  exact ⟨rfl, by decide, rfl, by decide, rfl, rfl⟩

/-- C1 (amended): for a buffer built by `create_buffer`, after any sequence
of public calls in which producers only mark full slots they could have
acquired (slots not currently full — the discipline `wait_for_empty_frame`
enforces), and with zero-on-release disabled: every full slot has every
registered producer's done bit *clear* (the row is reset on the transition
to full) and not every registered consumer's done bit set. -/
theorem buffer_full_slot_invariant
    {num_frames frame_size : Nat} {nm ty : String} {mp mc : Nat} {fp : Nat → Nat}
    {buf0 : Buffer} {rc0 : Nat → Nat} {ops : List BufOp} {rc : Nat → Nat} {buf : Buffer}
    (hcreate : create_buffer num_frames frame_size nm ty mp mc fp = some buf0)
    (hrun : DisciplinedRun rc0 buf0 ops rc buf)
    (hz : buf.zero_frames = false) :
    ∀ s, s < buf.num_frames → buf.is_full s = true →
      (∀ i, i < buf.max_producers → (buf.producers i).in_use = true →
        buf.producers_done s i = false) ∧
      private_consumers_done buf s = false := by
  have hJ := DisciplinedRun_invariant hrun (fun _ => create_buffer_invariant hcreate)
  exact fun s hs hf => (hJ hz).1 s hs hf

/-- C1, witness: the amended invariant evaluated on the concrete run of
`c1Ops` from `c1Buf0`. -/
theorem buffer_full_slot_invariant_witness :
    c1Final.zero_frames = false ∧ c1Final.is_full 0 = true ∧
    ((∀ i, i < c1Final.max_producers → (c1Final.producers i).in_use = true →
        c1Final.producers_done 0 i = false) ∧
      private_consumers_done c1Final 0 = false) := by
  have hrun : DisciplinedRun (fun _ => 0) c1Buf0 c1Ops (fun _ => 0) c1Final :=
    DisciplinedRun.cons trivial rfl
      (DisciplinedRun.cons trivial rfl
        (DisciplinedRun.cons rfl rfl (DisciplinedRun.nil _ _)))
  refine ⟨rfl, rfl, ?_⟩
  exact buffer_full_slot_invariant
    (show create_buffer 1 4 "buf" "standard" 1 1 (fun s => 100 + s) = some c1Buf0 from rfl)
    hrun rfl 0 (by decide) rfl

/-- After removing row `cid`, the all-consumers-done test is exactly "every
remaining in-use consumer is done". -/
theorem consumers_done_after_removal (buf : Buffer) (cid : Nat) (s : Nat) :
    private_consumers_done
      { buf with consumers := fun i =>
          if i = cid then { buf.consumers i with in_use := false, name := "unregistered" }
          else buf.consumers i } s = true ↔
    (∀ i, i < buf.max_consumers → i ≠ cid → (buf.consumers i).in_use = true →
      buf.consumers_done s i = true) := by
  rw [private_consumers_done_iff]
  constructor
  · intro hall i hi hne hu
    refine hall i hi ?_
    simpa [hne] using hu
  · intro hrem i hi hu
    by_cases hic : i = cid
    · subst hic
      simp at hu
    · exact hrem i hi hic (by simpa [hic] using hu)

/-- C2 (amended): `unregister_consumer(name)` clears that consumer's row
and then runs the empty transition on *every* slot whose remaining
registered consumers are all done — vacuously every slot when the removed
consumer was the last one — clearing the full flag and the consumer-done
row and releasing any bound metadata, even on slots that were not full;
slots with a remaining not-done consumer are unchanged; producers are woken
iff at least one slot had all remaining consumers done.  (Zero-on-release
disabled; the consumer must be registered, otherwise the call writes
through index −1.) -/
theorem unregister_consumer_spec {rc : Nat → Nat} {buf : Buffer} {name : String}
    {out : Buffer × (Nat → Nat) × Bool × List Nat}
    (h : unregister_consumer rc buf name = some out)
    (hz : buf.zero_frames = false) :
    ∃ cid, private_get_consumer_id buf name = some cid ∧
      (out.1.consumers cid).in_use = false ∧ (out.1.consumers cid).name = "unregistered" ∧
      (∀ i, i ≠ cid → out.1.consumers i = buf.consumers i) ∧
      (∀ s, s < buf.num_frames →
        ((∀ i, i < buf.max_consumers → i ≠ cid → (buf.consumers i).in_use = true →
            buf.consumers_done s i = true) →
          out.1.is_full s = false ∧ (∀ i, out.1.consumers_done s i = false) ∧
            out.1.metadata s = none) ∧
        (¬ (∀ i, i < buf.max_consumers → i ≠ cid → (buf.consumers i).in_use = true →
            buf.consumers_done s i = true) →
          out.1.is_full s = buf.is_full s ∧
            (∀ i, out.1.consumers_done s i = buf.consumers_done s i) ∧
            out.1.metadata s = buf.metadata s)) ∧
      (out.2.2.1 = true ↔ ∃ s, s < buf.num_frames ∧
        (∀ i, i < buf.max_consumers → i ≠ cid → (buf.consumers i).in_use = true →
          buf.consumers_done s i = true)) ∧
      out.2.2.2 = [] := by
  obtain ⟨cid, hcid, hout⟩ := unregister_consumer_state h
  refine ⟨cid, hcid, ?_⟩
  obtain ⟨sh_nf, sh_fr, sh_z, sh_pr, sh_pd, sh_co, sh_mp, sh_mc, sh_sh, sh_fs,
    sh_afs, sh_bn, sh_la⟩ := bufShape_fields (unregister_loop_bufShape (List.range buf.num_frames) rc
      { buf with consumers := fun i =>
          if i = cid then { buf.consumers i with in_use := false, name := "unregistered" }
          else buf.consumers i })
  obtain ⟨sp_mem, sp_out, sp_br, sp_sp⟩ := unregister_loop_spec (List.range buf.num_frames) rc
    { buf with consumers := fun i =>
        if i = cid then { buf.consumers i with in_use := false, name := "unregistered" }
        else buf.consumers i } hz (List.nodup_range _)
  have hco : out.1.consumers = fun i =>
      if i = cid then { buf.consumers i with in_use := false, name := "unregistered" }
      else buf.consumers i := by
    rw [hout]
    exact sh_co
  refine ⟨?_, ?_, ?_, ?_, ?_, ?_⟩
  · rw [hco]
    simp
  · rw [hco]
    simp
  · intro i hi
    rw [hco]
    simp [hi]
  · intro s hs
    have hsr : s ∈ List.range buf.num_frames := List.mem_range.mpr hs
    constructor
    · intro hdone
      have hc := (consumers_done_after_removal buf cid s).mpr hdone
      have h1 := (sp_mem s hsr).1 hc
      rw [hout]
      exact h1
    · intro hndone
      have hc : private_consumers_done
          { buf with consumers := fun i =>
              if i = cid then { buf.consumers i with in_use := false, name := "unregistered" }
              else buf.consumers i } s = false := by
        rw [← Bool.not_eq_true]
        intro hcon
        exact hndone ((consumers_done_after_removal buf cid s).mp hcon)
      have h1 := (sp_mem s hsr).2 hc
      rw [hout]
      exact h1
  · rw [hout, sp_br]
    rw [List.any_eq_true]
    constructor
    · rintro ⟨s, hsr, hps⟩
      exact ⟨s, List.mem_range.mp hsr, (consumers_done_after_removal buf cid s).mp hps⟩
    · rintro ⟨s, hs, hdone⟩
      exact ⟨s, List.mem_range.mpr hs, (consumers_done_after_removal buf cid s).mpr hdone⟩
  · rw [hout]
    exact sp_sp

/-- C2, counterexample: unregistering the last consumer of `c2Buf` touches
slot 0 even though slot 0 is *not* full — its metadata reference is
released (nulled, refcount dropped to 0) and producers are woken
(`empty_cond` broadcast) although no full slot was transitioned — because
the loop in `unregister_consumer` (buffer.c:403–407) never checks
`is_full` and the all-consumers-done test is vacuously true once no
consumer remains.  The claim said non-full slots are left unchanged. -/
theorem c2_counterexample :
    c2Buf.is_full 0 = false ∧ c2Buf.metadata 0 = some 7 ∧ c2Rc 7 = 1 ∧
    unregister_consumer c2Rc c2Buf "c" = some c2Out ∧
    c2Out.1.metadata 0 = none ∧ c2Out.2.1 7 = 0 ∧ c2Out.2.2.1 = true :=
  ⟨rfl, rfl, rfl, rfl, rfl, rfl, rfl⟩

/-- C2, witness: the amended statement evaluated on the `c2Buf` scenario. -/
theorem unregister_consumer_spec_witness :
    c2Buf.zero_frames = false ∧
    (∃ cid, private_get_consumer_id c2Buf "c" = some cid ∧
      (c2Out.1.consumers cid).in_use = false ∧ (c2Out.1.consumers cid).name = "unregistered" ∧
      (∀ i, i ≠ cid → c2Out.1.consumers i = c2Buf.consumers i) ∧
      (∀ s, s < c2Buf.num_frames →
        ((∀ i, i < c2Buf.max_consumers → i ≠ cid → (c2Buf.consumers i).in_use = true →
            c2Buf.consumers_done s i = true) →
          c2Out.1.is_full s = false ∧ (∀ i, c2Out.1.consumers_done s i = false) ∧
            c2Out.1.metadata s = none) ∧
        (¬ (∀ i, i < c2Buf.max_consumers → i ≠ cid → (c2Buf.consumers i).in_use = true →
            c2Buf.consumers_done s i = true) →
          c2Out.1.is_full s = c2Buf.is_full s ∧
            (∀ i, c2Out.1.consumers_done s i = c2Buf.consumers_done s i) ∧
            c2Out.1.metadata s = c2Buf.metadata s)) ∧
      (c2Out.2.2.1 = true ↔ ∃ s, s < c2Buf.num_frames ∧
        (∀ i, i < c2Buf.max_consumers → i ≠ cid → (c2Buf.consumers i).in_use = true →
          c2Buf.consumers_done s i = true)) ∧
      c2Out.2.2.2 = []) :=
  ⟨rfl, unregister_consumer_spec rfl rfl⟩

/-- The producer lookup only inspects capacities, in-use flags and names. -/
theorem private_get_producer_id_congr {b b' : Buffer} {name : String}
    (hmax : b'.max_producers = b.max_producers)
    (hp : ∀ i, (b'.producers i).in_use = (b.producers i).in_use ∧
      (b'.producers i).name = (b.producers i).name) :
    private_get_producer_id b' name = private_get_producer_id b name := by
  unfold private_get_producer_id
  rw [hmax]
  induction List.range b.max_producers with
  | nil => rfl
  | cons x xs ih =>
    simp only [List.find?_cons]
    rw [show ((b'.producers x).in_use && (b'.producers x).name == name) =
        ((b.producers x).in_use && (b.producers x).name == name) from by
      rw [(hp x).1, (hp x).2]]
    cases (b.producers x).in_use && (b.producers x).name == name with
    | true => rfl
    | false => exact ih

/-- The success path of `wait_for_empty_frame`: with the slot in range, the
producer registered, no shutdown, the slot not full and this producer's
done bit clear, the call returns the frame pointer without sleeping. -/
theorem wait_for_empty_frame_got_of {buf : Buffer} {name : String} {id : Nat} (pid : Nat)
    (hid : id < buf.num_frames)
    (hpid : private_get_producer_id buf name = some pid)
    (hsd : buf.shutdown_signal = false)
    (hfull : buf.is_full id = false)
    (hdone : buf.producers_done id pid = false) :
    ∃ b, wait_for_empty_frame buf name id = some (.got (buf.frames id) b) := by
  unfold wait_for_empty_frame
  rw [if_pos hid]
  simp only [hpid]
  rw [if_neg (by simp [hsd])]
  rw [if_neg (by simp [hfull, hdone])]
  exact ⟨_, rfl⟩

/-- C3: when the last pending registered producer marks slot `id` full and
no consumer is registered, the same `mark_frame_full` call transitions the
slot straight back to empty: `is_full[id]` ends at 0, the metadata
reference is released (nulled, refcount decremented), the consumer-done row
is cleared, `set_empty` records that the drop path ran, and a subsequent
`wait_for_empty_frame` on the slot returns the frame pointer immediately
instead of blocking. -/
theorem mark_frame_full_no_consumers
    {rc : Nat → Nat} {buf : Buffer} {name : String} {id now : Nat} (pid : Nat)
    (hid : id < buf.num_frames)
    (hpid : private_get_producer_id buf name = some pid)
    (hbit : buf.producers_done id pid = false)
    (hlast : ∀ i, i < buf.max_producers → (buf.producers i).in_use = true → i ≠ pid →
      buf.producers_done id i = true)
    (hnoc : ∀ i, i < buf.max_consumers → (buf.consumers i).in_use = false)
    (hsd : buf.shutdown_signal = false) :
    ∃ r, mark_frame_full rc buf name id now = some r ∧
      r.set_full = true ∧ r.set_empty = true ∧
      r.buf.is_full id = false ∧
      r.buf.metadata id = none ∧
      (∀ i, r.buf.consumers_done id i = false) ∧
      (∀ mc, buf.metadata id = some mc → r.refcnt = decrement_metadata_ref_count rc mc) ∧
      (buf.metadata id = none → r.refcnt = rc) ∧
      (∃ b, wait_for_empty_frame r.buf name id = some (.got (r.buf.frames id) b)) := by
  cases hm : private_mark_producer_done buf name id with
  | none =>
    exfalso
    unfold private_mark_producer_done at hm
    rw [hpid] at hm
    simp [hbit] at hm
  | some buf1 =>
    obtain ⟨pid', hpid', hbit', hb1⟩ := private_mark_producer_done_state hm
    have hpideq : pid' = pid := by
      rw [hpid] at hpid'
      exact (Option.some.inj hpid').symm
    subst pid'
    have b1_pu : ∀ i, (buf1.producers i).in_use = (buf.producers i).in_use := by
      intro i
      rw [hb1]
      by_cases hip : i = pid <;> simp [hip]
    have b1_pn : ∀ i, (buf1.producers i).name = (buf.producers i).name := by
      intro i
      rw [hb1]
      by_cases hip : i = pid <;> simp [hip]
    have b1_pd : ∀ s i, buf1.producers_done s i =
        if s = id ∧ i = pid then true else buf.producers_done s i := by
      intro s i
      rw [hb1]
    have b1_mp : buf1.max_producers = buf.max_producers := by rw [hb1]
    have b1_mc : buf1.max_consumers = buf.max_consumers := by rw [hb1]
    have b1_md : buf1.metadata = buf.metadata := by rw [hb1]
    have b1_co : buf1.consumers = buf.consumers := by rw [hb1]
    have b1_nf : buf1.num_frames = buf.num_frames := by rw [hb1]
    have b1_sh : buf1.shutdown_signal = buf.shutdown_signal := by rw [hb1]
    have hallp : private_producers_done buf1 id = true := by
      rw [private_producers_done_iff]
      intro i hi hu
      rw [b1_pd]
      by_cases hip : i = pid
      · simp [hip]
      · have hni : ¬ (id = id ∧ i = pid) := fun hx => hip hx.2
        rw [if_neg hni]
        rw [b1_mp] at hi
        rw [b1_pu] at hu
        exact hlast i hi hu hip
    have hcd : private_consumers_done (mark_full_transition buf1 id now) id = true := by
      rw [private_consumers_done_iff]
      intro i hi hu
      exfalso
      have hi' : i < buf.max_consumers := by
        rw [show (mark_full_transition buf1 id now).max_consumers = buf1.max_consumers
          from rfl, b1_mc] at hi
        exact hi
      have hu' : (buf.consumers i).in_use = true := by
        rw [show (mark_full_transition buf1 id now).consumers = buf1.consumers from rfl,
          b1_co] at hu
        exact hu
      rw [hnoc i hi'] at hu'
      exact Bool.false_ne_true hu'
    have heq : mark_frame_full rc buf name id now =
        some (mark_full_drop rc (mark_full_transition buf1 id now) id) := by
      unfold mark_frame_full
      simp only [hm]
      rw [if_pos hid, if_pos hallp, if_pos hcd]
    refine ⟨mark_full_drop rc (mark_full_transition buf1 id now) id, heq,
      (mark_full_drop_flags _ _ _).1, (mark_full_drop_flags _ _ _).2, ?_, ?_, ?_, ?_, ?_, ?_⟩
    · rw [mark_full_drop_buf]
      simp [private_reset_consumers]
    · rw [mark_full_drop_buf]
      simp [private_reset_consumers]
    · intro i
      rw [mark_full_drop_buf]
      simp [private_reset_consumers]
    · intro mc hmd
      rw [mark_full_drop_refcnt]
      have hmd' : ({ mark_full_transition buf1 id now with
          is_full := fun s => if s = id then false
            else (mark_full_transition buf1 id now).is_full s }).metadata id = some mc := by
        show buf1.metadata id = some mc
        rw [b1_md]
        exact hmd
      rw [release_slot_metadata_of_some hmd']
    · intro hmd
      rw [mark_full_drop_refcnt]
      have hmd' : ({ mark_full_transition buf1 id now with
          is_full := fun s => if s = id then false
            else (mark_full_transition buf1 id now).is_full s }).metadata id = none := by
        show buf1.metadata id = none
        rw [b1_md]
        exact hmd
      rw [release_slot_metadata_of_none hmd']
    · rw [mark_full_drop_buf]
      apply wait_for_empty_frame_got_of pid
      · show id < buf1.num_frames
        rw [b1_nf]
        exact hid
      · exact (private_get_producer_id_congr (b := buf) b1_mp
          (fun i => ⟨b1_pu i, b1_pn i⟩)).trans hpid
      · show buf1.shutdown_signal = false
        rw [b1_sh]
        exact hsd
      · simp [private_reset_consumers]
      · show (if id = id then (false : Bool) else buf1.producers_done id pid) = false
        simp

/-- C3, witness: the no-sink drop on the concrete buffer `c3Buf`. -/
theorem mark_frame_full_no_consumers_witness :
    ∃ r, mark_frame_full c3Rc c3Buf "p" 0 5 = some r ∧
      r.set_full = true ∧ r.set_empty = true ∧
      r.buf.is_full 0 = false ∧
      r.buf.metadata 0 = none ∧
      (∀ i, r.buf.consumers_done 0 i = false) ∧
      (∀ mc, c3Buf.metadata 0 = some mc → r.refcnt = decrement_metadata_ref_count c3Rc mc) ∧
      (c3Buf.metadata 0 = none → r.refcnt = c3Rc) ∧
      (∃ b, wait_for_empty_frame r.buf "p" 0 = some (.got (r.buf.frames 0) b)) :=
  mark_frame_full_no_consumers 0 (by decide) (by decide) rfl
    (by decide) (by decide) rfl

/-- The sleeping path of `wait_for_empty_frame`: with the slot in range,
the producer registered and no shutdown, the call sleeps on `empty_cond`
whenever the slot is full or this producer's done bit is set. -/
theorem wait_for_empty_frame_blocked_of {buf : Buffer} {name : String} {id pid : Nat}
    (hid : id < buf.num_frames)
    (hpid : private_get_producer_id buf name = some pid)
    (hsd : buf.shutdown_signal = false)
    (hblk : buf.is_full id = true ∨ buf.producers_done id pid = true) :
    wait_for_empty_frame buf name id = some .blocked := by
  unfold wait_for_empty_frame
  rw [if_pos hid]
  simp only [hpid]
  rw [if_neg (by simp [hsd])]
  rw [if_pos (by rcases hblk with h | h <;> simp [h])]

/-- The shutdown path of `wait_for_empty_frame`: with the slot in range and
the producer registered, a set shutdown flag makes the call return null. -/
theorem wait_for_empty_frame_shutdown_of {buf : Buffer} {name : String} {id pid : Nat}
    (hid : id < buf.num_frames)
    (hpid : private_get_producer_id buf name = some pid)
    (hsd : buf.shutdown_signal = true) :
    wait_for_empty_frame buf name id = some (.shutdownNull buf) := by
  unfold wait_for_empty_frame
  rw [if_pos hid]
  simp only [hpid]
  rw [if_pos (by simp [hsd])]

theorem private_zero_frames_eq {buf : Buffer} {heap : Nat → Nat → Nat} {id : Nat}
    (hle : id ≤ buf.num_frames) :
    private_zero_frames buf heap id = some
      ({ buf with
          is_full := fun s => if s = id then false else buf.is_full s,
          consumers_done := fun s i => if s = id then false else buf.consumers_done s i },
        (fun p off => if p = buf.frames id ∧ off < buf.frame_size then 0 else heap p off),
        true) := by
  unfold private_zero_frames
  rw [if_pos hle]

/-- C4: with zero-on-release enabled, when the last registered consumer
calls `mark_frame_empty` on a full slot, the call itself neither clears the
full flag nor signals `empty_cond` — it only spawns the zeroing task — so a
producer's `wait_for_empty_frame` still sleeps; the slot becomes
empty-visible only when the task body `private_zero_frames` completes: it
zeroes the `frame_size` bytes behind the slot's storage pointer, clears the
full flag, resets the consumer-done row and broadcasts `empty_cond`, after
which the producer's `wait_for_empty_frame` returns the (zeroed) frame. -/
theorem zero_on_release_deferred_empty
    {rc : Nat → Nat} {buf : Buffer} {name pname : String} {id : Nat} (cid pid : Nat)
    {heap : Nat → Nat → Nat}
    (hz : buf.zero_frames = true)
    (hid : id < buf.num_frames)
    (hcid : private_get_consumer_id buf name = some cid)
    (hbit : buf.consumers_done id cid = false)
    (hlastc : ∀ i, i < buf.max_consumers → (buf.consumers i).in_use = true → i ≠ cid →
      buf.consumers_done id i = true)
    (hfull : buf.is_full id = true)
    (hsd : buf.shutdown_signal = false)
    (hpid : private_get_producer_id buf pname = some pid)
    (hpdone : buf.producers_done id pid = false) :
    ∃ r, mark_frame_empty rc buf name id = some r ∧
      r.broadcast = false ∧ r.spawned = true ∧
      r.buf.is_full id = true ∧
      wait_for_empty_frame r.buf pname id = some .blocked ∧
      ∃ b2 heap2 bc, private_zero_frames r.buf heap id = some (b2, heap2, bc) ∧
        bc = true ∧
        (∀ off, off < buf.frame_size → heap2 (r.buf.frames id) off = 0) ∧
        b2.is_full id = false ∧ (∀ i, b2.consumers_done id i = false) ∧
        (∃ b, wait_for_empty_frame b2 pname id = some (.got (b2.frames id) b)) := by
  cases hm : private_mark_consumer_done buf name id with
  | none =>
    exfalso
    unfold private_mark_consumer_done at hm
    rw [hcid] at hm
    simp [hbit] at hm
  | some buf1 =>
    obtain ⟨cid', hcid', hbit', hb1⟩ := private_mark_consumer_done_state hm
    have hcideq : cid' = cid := by
      rw [hcid] at hcid'
      exact (Option.some.inj hcid').symm
    subst cid'
    have b1_cu : ∀ i, (buf1.consumers i).in_use = (buf.consumers i).in_use := by
      intro i
      rw [hb1]
      by_cases hic : i = cid <;> simp [hic]
    have b1_cd : ∀ s i, buf1.consumers_done s i =
        if s = id ∧ i = cid then true else buf.consumers_done s i := by
      intro s i
      rw [hb1]
    have b1_full : buf1.is_full = buf.is_full := by rw [hb1]
    have b1_mc : buf1.max_consumers = buf.max_consumers := by rw [hb1]
    have b1_mp : buf1.max_producers = buf.max_producers := by rw [hb1]
    have b1_pr : buf1.producers = buf.producers := by rw [hb1]
    have b1_pd : buf1.producers_done = buf.producers_done := by rw [hb1]
    have b1_nf : buf1.num_frames = buf.num_frames := by rw [hb1]
    have b1_sh : buf1.shutdown_signal = buf.shutdown_signal := by rw [hb1]
    have b1_z : buf1.zero_frames = true := by rw [hb1]; exact hz
    have b1_fr : buf1.frames = buf.frames := by rw [hb1]
    have b1_fs : buf1.frame_size = buf.frame_size := by rw [hb1]
    have hallc : private_consumers_done buf1 id = true := by
      rw [private_consumers_done_iff]
      intro i hi hu
      rw [b1_cd]
      by_cases hic : i = cid
      · simp [hic]
      · have hni : ¬ (id = id ∧ i = cid) := fun hx => hic hx.2
        rw [if_neg hni]
        rw [b1_mc] at hi
        rw [b1_cu] at hu
        exact hlastc i hi hu hic
    have heq : mark_frame_empty rc buf name id = some (private_mark_frame_empty rc buf1 id) := by
      unfold mark_frame_empty
      simp only [hm]
      rw [if_pos hid, if_pos hallc]
    obtain ⟨e_full, e_cd, e_md, e_bc, e_sp⟩ :=
      private_mark_frame_empty_zero_fields rc buf1 id b1_z
    obtain ⟨s_nf, s_fr, s_z, s_pr, s_pd, s_co, s_mp, s_mc, s_sh, s_fs, s_afs, s_bn, s_la⟩ :=
      private_mark_frame_empty_buf_shape rc buf1 id
    have r_full : (private_mark_frame_empty rc buf1 id).buf.is_full id = true := by
      rw [e_full, b1_full]
      exact hfull
    have r_nf : (private_mark_frame_empty rc buf1 id).buf.num_frames = buf.num_frames := by
      rw [s_nf, b1_nf]
    have r_pid : private_get_producer_id (private_mark_frame_empty rc buf1 id).buf pname =
        some pid := by
      refine (private_get_producer_id_congr (b := buf) (by rw [s_mp, b1_mp]) ?_).trans hpid
      intro i
      constructor
      · rw [show ((private_mark_frame_empty rc buf1 id).buf.producers i) = buf1.producers i
          from by rw [s_pr]]
        rw [show (buf1.producers i) = buf.producers i from by rw [b1_pr]]
      · rw [show ((private_mark_frame_empty rc buf1 id).buf.producers i) = buf1.producers i
          from by rw [s_pr]]
        rw [show (buf1.producers i) = buf.producers i from by rw [b1_pr]]
    have r_sd : (private_mark_frame_empty rc buf1 id).buf.shutdown_signal = false := by
      rw [s_sh, b1_sh]
      exact hsd
    refine ⟨private_mark_frame_empty rc buf1 id, heq, e_bc, e_sp, r_full, ?_, ?_⟩
    · exact wait_for_empty_frame_blocked_of (by rw [r_nf]; exact hid) r_pid r_sd (Or.inl r_full)
    · rw [private_zero_frames_eq (by rw [r_nf]; exact Nat.le_of_lt hid)]
      refine ⟨_, _, _, rfl, rfl, ?_, ?_, ?_, ?_⟩
      · intro off hoff
        have hfs : (private_mark_frame_empty rc buf1 id).buf.frame_size = buf.frame_size := by
          rw [s_fs, b1_fs]
        simp only [hfs]
        simp [hoff]
      · simp
      · intro i
        simp
      · apply wait_for_empty_frame_got_of pid
        · show id < (private_mark_frame_empty rc buf1 id).buf.num_frames
          rw [r_nf]
          exact hid
        · refine (private_get_producer_id_congr
            (b := (private_mark_frame_empty rc buf1 id).buf) rfl
            (fun i => ⟨rfl, rfl⟩)).trans r_pid
        · show (private_mark_frame_empty rc buf1 id).buf.shutdown_signal = false
          exact r_sd
        · simp
        · show (private_mark_frame_empty rc buf1 id).buf.producers_done id pid = false
          rw [s_pd, b1_pd]
          exact hpdone

/-- C4, witness: the deferred empty transition on the concrete buffer
`c4Buf` with the all-nines heap. -/
theorem zero_on_release_deferred_empty_witness :
    c4Buf.zero_frames = true ∧ c4Buf.is_full 0 = true ∧
    (∃ r, mark_frame_empty (fun _ => 0) c4Buf "c" 0 = some r ∧
      r.broadcast = false ∧ r.spawned = true ∧
      r.buf.is_full 0 = true ∧
      wait_for_empty_frame r.buf "p" 0 = some .blocked ∧
      ∃ b2 heap2 bc, private_zero_frames r.buf c4Heap 0 = some (b2, heap2, bc) ∧
        bc = true ∧
        (∀ off, off < c4Buf.frame_size → heap2 (r.buf.frames 0) off = 0) ∧
        b2.is_full 0 = false ∧ (∀ i, b2.consumers_done 0 i = false) ∧
        (∃ b, wait_for_empty_frame b2 "p" 0 = some (.got (b2.frames 0) b))) :=
  ⟨rfl, rfl, zero_on_release_deferred_empty 0 0 rfl (by decide)
    (by decide) rfl (by decide) rfl rfl (by decide) rfl⟩

/-- C5: for a registered producer and an in-range slot,
`wait_for_empty_frame` returns null whenever the shutdown flag is set, and
otherwise returns the slot's frame pointer — recording
`last_frame_acquired = ID` in the producer's row — exactly when the slot is
not full and this producer's done bit for the slot is clear, sleeping on
`empty_cond` in every other case. -/
theorem wait_for_empty_frame_spec {buf : Buffer} {name : String} {id pid : Nat}
    (hid : id < buf.num_frames)
    (hpid : private_get_producer_id buf name = some pid) :
    (buf.shutdown_signal = true →
      wait_for_empty_frame buf name id = some (.shutdownNull buf)) ∧
    (buf.shutdown_signal = false →
      ((buf.is_full id = false ∧ buf.producers_done id pid = false) ↔
        wait_for_empty_frame buf name id =
          some (.got (buf.frames id)
            { buf with producers := fun i =>
                if i = pid then { buf.producers i with last_frame_acquired := (id : Int) }
                else buf.producers i })) ∧
      ((buf.is_full id = true ∨ buf.producers_done id pid = true) ↔
        wait_for_empty_frame buf name id = some .blocked)) := by
  refine ⟨fun hsd => wait_for_empty_frame_shutdown_of hid hpid hsd, fun hsd => ⟨?_, ?_⟩⟩
  · constructor
    · rintro ⟨h1, h2⟩
      unfold wait_for_empty_frame
      rw [if_pos hid]
      simp only [hpid]
      rw [if_neg (by simp [hsd])]
      rw [if_neg (by simp [h1, h2])]
    · intro hgot
      by_cases h1 : buf.is_full id = true
      · rw [wait_for_empty_frame_blocked_of hid hpid hsd (Or.inl h1)] at hgot
        exact absurd (Option.some.inj hgot) (fun hx => WaitOutcome.noConfusion hx)
      · by_cases h2 : buf.producers_done id pid = true
        · rw [wait_for_empty_frame_blocked_of hid hpid hsd (Or.inr h2)] at hgot
          exact absurd (Option.some.inj hgot) (fun hx => WaitOutcome.noConfusion hx)
        · rw [Bool.not_eq_true] at h1 h2
          exact ⟨h1, h2⟩
  · constructor
    · intro hblk
      exact wait_for_empty_frame_blocked_of hid hpid hsd hblk
    · intro hblk
      by_cases h1 : buf.is_full id = true
      · exact Or.inl h1
      · by_cases h2 : buf.producers_done id pid = true
        · exact Or.inr h2
        · exfalso
          rw [Bool.not_eq_true] at h1 h2
          obtain ⟨b, hb⟩ := wait_for_empty_frame_got_of pid hid hpid hsd h1 h2
          rw [hb] at hblk
          exact absurd (Option.some.inj hblk) (fun hx => WaitOutcome.noConfusion hx)

/-- C5, witness: the specification evaluated on `c3Buf` (producer "p"
registered, slot 0 empty, no shutdown). -/
theorem wait_for_empty_frame_spec_witness :
    (0 < c3Buf.num_frames ∧ private_get_producer_id c3Buf "p" = some 0) ∧
    ((c3Buf.shutdown_signal = true →
      wait_for_empty_frame c3Buf "p" 0 = some (.shutdownNull c3Buf)) ∧
    (c3Buf.shutdown_signal = false →
      ((c3Buf.is_full 0 = false ∧ c3Buf.producers_done 0 0 = false) ↔
        wait_for_empty_frame c3Buf "p" 0 =
          some (.got (c3Buf.frames 0)
            { c3Buf with producers := fun i =>
                if i = 0 then { c3Buf.producers i with last_frame_acquired := (0 : Int) }
                else c3Buf.producers i })) ∧
      ((c3Buf.is_full 0 = true ∨ c3Buf.producers_done 0 0 = true) ↔
        wait_for_empty_frame c3Buf "p" 0 = some .blocked))) :=
  ⟨⟨by decide, by decide⟩, wait_for_empty_frame_spec (by decide) (by decide)⟩

/-- C6: for a registered consumer, `wait_for_full_frame_timeout` always
returns one of the three sentinels −1 (`shutdown`), 1 (`timeout`, the
`ETIMEDOUT` of `pthread_cond_timedwait`), 0 (`ok`); with the shutdown flag
set it returns the shutdown outcome, and — the deadline being absolute and
in the past, so the very first `pthread_cond_timedwait` returns
`ETIMEDOUT` — on a slot that is not full it returns the timeout outcome
without ever sleeping, leaving the buffer unchanged. -/
theorem wait_for_full_frame_timeout_spec {buf : Buffer} {name : String} {id : Nat}
    (cid : Nat) (hcid : private_get_consumer_id buf name = some cid) :
    (∃ st b, wait_for_full_frame_timeout buf name id = some (st, b) ∧
      (st = .ok ∨ st = .timeout ∨ st = .shutdown)) ∧
    (buf.shutdown_signal = true →
      wait_for_full_frame_timeout buf name id = some (.shutdown, buf)) ∧
    (buf.shutdown_signal = false → buf.is_full id = false →
      wait_for_full_frame_timeout buf name id = some (.timeout, buf)) := by
  refine ⟨?_, ?_, ?_⟩
  · unfold wait_for_full_frame_timeout
    simp only [hcid]
    by_cases hsd : buf.shutdown_signal = true
    · rw [if_pos hsd]
      exact ⟨_, _, rfl, Or.inr (Or.inr rfl)⟩
    · rw [if_neg hsd]
      by_cases hok : (buf.is_full id && !(buf.consumers_done id cid)) = true
      · rw [if_pos hok]
        exact ⟨_, _, rfl, Or.inl rfl⟩
      · rw [if_neg hok]
        exact ⟨_, _, rfl, Or.inr (Or.inl rfl)⟩
  · intro hsd
    unfold wait_for_full_frame_timeout
    simp only [hcid]
    rw [if_pos hsd]
  · intro hsd hnf
    unfold wait_for_full_frame_timeout
    simp only [hcid]
    rw [if_neg (by simp [hsd])]
    rw [if_neg (by simp [hnf])]

/-- C6, witness: the timed wait on `c2Buf` (consumer "c" registered, slot 0
not full, no shutdown) — in particular the past-deadline form returns
`timeout` at once. -/
theorem wait_for_full_frame_timeout_spec_witness :
    private_get_consumer_id c2Buf "c" = some 0 ∧
    ((∃ st b, wait_for_full_frame_timeout c2Buf "c" 0 = some (st, b) ∧
      (st = .ok ∨ st = .timeout ∨ st = .shutdown)) ∧
    (c2Buf.shutdown_signal = true →
      wait_for_full_frame_timeout c2Buf "c" 0 = some (.shutdown, c2Buf)) ∧
    (c2Buf.shutdown_signal = false → c2Buf.is_full 0 = false →
      wait_for_full_frame_timeout c2Buf "c" 0 = some (.timeout, c2Buf))) :=
  ⟨by decide, wait_for_full_frame_timeout_spec 0 (by decide)⟩

/-- C7: when the source slot holds container `mc`, `pass_metadata` binds an
empty destination slot to that very container and increments its refcount;
when the destination already holds exactly `mc` it changes nothing (no
further increment); when the destination holds a different container the
assertion at the end of the function fails. -/
theorem pass_metadata_spec {rc : Nat → Nat} {from_buf : Buffer} {from_id : Nat}
    {to_buf : Buffer} {to_id : Nat} {mc : Nat}
    (hsrc : from_buf.metadata from_id = some mc) :
    (to_buf.metadata to_id = none →
      pass_metadata rc from_buf from_id to_buf to_id =
        some ({ to_buf with
            metadata := fun s => if s = to_id then some mc else to_buf.metadata s },
          increment_metadata_ref_count rc mc) ∧
      increment_metadata_ref_count rc mc mc = rc mc + 1) ∧
    (to_buf.metadata to_id = some mc →
      pass_metadata rc from_buf from_id to_buf to_id = some (to_buf, rc)) ∧
    (∀ other, to_buf.metadata to_id = some other → other ≠ mc →
      pass_metadata rc from_buf from_id to_buf to_id = none) := by
  refine ⟨?_, ?_, ?_⟩
  · intro hdst
    constructor
    · unfold pass_metadata
      simp only [hsrc, hdst]
    · unfold increment_metadata_ref_count
      simp
  · intro hdst
    unfold pass_metadata
    simp only [hsrc, hdst]
    simp
  · intro other hdst hne
    unfold pass_metadata
    simp only [hsrc, hdst]
    rw [if_neg hne]

/-- C7, witness: passing container 7 from `c2Buf` slot 0 into the empty
slot 0 of `c1Buf0`. -/
theorem pass_metadata_spec_witness :
    c2Buf.metadata 0 = some 7 ∧
    ((c1Buf0.metadata 0 = none →
      pass_metadata c2Rc c2Buf 0 c1Buf0 0 =
        some ({ c1Buf0 with
            metadata := fun s => if s = 0 then some 7 else c1Buf0.metadata s },
          increment_metadata_ref_count c2Rc 7) ∧
      increment_metadata_ref_count c2Rc 7 7 = c2Rc 7 + 1) ∧
    (c1Buf0.metadata 0 = some 7 →
      pass_metadata c2Rc c2Buf 0 c1Buf0 0 = some (c1Buf0, c2Rc)) ∧
    (∀ other, c1Buf0.metadata 0 = some other → other ≠ 7 →
      pass_metadata c2Rc c2Buf 0 c1Buf0 0 = none)) :=
  ⟨rfl, pass_metadata_spec rfl⟩

/-- C8: under the asserted preconditions (valid indices, equal aligned
frame sizes, one consumer on the source, one producer on the destination)
`swap_frames` exchanges exactly the two storage pointers and leaves every
other field of both buffers untouched; with the symmetric role conditions
the reverse call restores both frame arrays; and whenever one of the
asserted preconditions fails the call aborts. -/
theorem swap_frames_spec (A B : Buffer) (a b : Nat)
    (hA : a < A.num_frames) (hB : b < B.num_frames)
    (hsize : A.aligned_frame_size = B.aligned_frame_size)
    (hconsA : get_num_consumers A = 1) (hprodB : get_num_producers B = 1)
    (hconsB : get_num_consumers B = 1) (hprodA : get_num_producers A = 1) :
    ∃ A' B', swap_frames A a B b = some (A', B') ∧
      A'.frames a = B.frames b ∧ B'.frames b = A.frames a ∧
      (∀ i, i ≠ a → A'.frames i = A.frames i) ∧
      (∀ i, i ≠ b → B'.frames i = B.frames i) ∧
      A'.is_full = A.is_full ∧ B'.is_full = B.is_full ∧
      A'.metadata = A.metadata ∧ B'.metadata = B.metadata ∧
      A'.producers = A.producers ∧ B'.producers = B.producers ∧
      A'.consumers = A.consumers ∧ B'.consumers = B.consumers ∧
      A'.num_frames = A.num_frames ∧ B'.num_frames = B.num_frames ∧
      (∃ B2 A2, swap_frames B' b A' a = some (B2, A2) ∧
        A2.frames = A.frames ∧ B2.frames = B.frames) ∧
      (∀ (C D : Buffer) (c d : Nat),
        ¬ (c < C.num_frames ∧ d < D.num_frames ∧
            C.aligned_frame_size = D.aligned_frame_size ∧
            get_num_consumers C = 1 ∧ get_num_producers D = 1) →
        swap_frames C c D d = none) := by
  have heq : swap_frames A a B b = some
      ({ A with frames := fun i => if i = a then B.frames b else A.frames i },
        { B with frames := fun i => if i = b then A.frames a else B.frames i }) := by
    unfold swap_frames
    rw [if_pos ⟨hA, hB, hsize, hconsA, hprodB⟩]
  refine ⟨_, _, heq, by simp, by simp, ?_, ?_, rfl, rfl, rfl, rfl, rfl, rfl, rfl, rfl,
    rfl, rfl, ?_, ?_⟩
  · intro i hi
    simp [hi]
  · intro i hi
    simp [hi]
  · have heq2 : swap_frames
        { B with frames := fun i => if i = b then A.frames a else B.frames i } b
        { A with frames := fun i => if i = a then B.frames b else A.frames i } a = some
        ({ B with frames := fun i =>
            if i = b then
              ({ A with frames := fun i => if i = a then B.frames b else A.frames i }).frames a
            else
              ({ B with frames := fun i => if i = b then A.frames a else B.frames i }).frames i },
          { A with frames := fun i =>
            if i = a then
              ({ B with frames := fun i => if i = b then A.frames a else B.frames i }).frames b
            else
              ({ A with frames := fun i => if i = a then B.frames b else A.frames i }).frames i }) := by
      unfold swap_frames
      rw [if_pos ⟨hB, hA, hsize.symm, hconsB, hprodA⟩]
    refine ⟨_, _, heq2, ?_, ?_⟩
    · funext i
      by_cases hia : i = a
      · subst hia
        simp
      · simp [hia]
    · funext i
      by_cases hib : i = b
      · subst hib
        simp
      · simp [hib]
  · intro C D c d hfail
    unfold swap_frames
    rw [if_neg hfail]

/-- C8, witness: the swap/round-trip properties on `c8BufA` and `c8BufB`. -/
theorem swap_frames_spec_witness :
    ∃ A' B', swap_frames c8BufA 0 c8BufB 0 = some (A', B') ∧
      A'.frames 0 = c8BufB.frames 0 ∧ B'.frames 0 = c8BufA.frames 0 ∧
      (∀ i, i ≠ 0 → A'.frames i = c8BufA.frames i) ∧
      (∀ i, i ≠ 0 → B'.frames i = c8BufB.frames i) ∧
      A'.is_full = c8BufA.is_full ∧ B'.is_full = c8BufB.is_full ∧
      A'.metadata = c8BufA.metadata ∧ B'.metadata = c8BufB.metadata ∧
      A'.producers = c8BufA.producers ∧ B'.producers = c8BufB.producers ∧
      A'.consumers = c8BufA.consumers ∧ B'.consumers = c8BufB.consumers ∧
      A'.num_frames = c8BufA.num_frames ∧ B'.num_frames = c8BufB.num_frames ∧
      (∃ B2 A2, swap_frames B' 0 A' 0 = some (B2, A2) ∧
        A2.frames = c8BufA.frames ∧ B2.frames = c8BufB.frames) ∧
      (∀ (C D : Buffer) (c d : Nat),
        ¬ (c < C.num_frames ∧ d < D.num_frames ∧
            C.aligned_frame_size = D.aligned_frame_size ∧
            get_num_consumers C = 1 ∧ get_num_producers D = 1) →
        swap_frames C c D d = none) :=
  swap_frames_spec c8BufA c8BufB 0 0 (by decide) (by decide) rfl (by decide) (by decide)
    (by decide) (by decide)

/-- C9: on a buffer with a single registered producer, a single registered
consumer and zero-on-release disabled, any sequence of acquire and release
calls (`wait_for_empty_frame`, `wait_for_full_frame`, `mark_frame_full`,
`mark_frame_empty`) that completes leaves every slot's backing-storage
pointer identical to what it was before the sequence: frames are recycled
in place, never re-seated. -/
theorem acquire_release_preserve_frames {rc : Nat → Nat} {buf : Buffer}
    {ops : List BufOp} {rc' : Nat → Nat} {buf' : Buffer}
    (hops : ∀ op ∈ ops,
      (∃ n i, op = .waitEmptyOp n i) ∨ (∃ n i, op = .waitFullOp n i) ∨
      (∃ n i t, op = .markFullOp n i t) ∨ (∃ n i, op = .markEmptyOp n i))
    (hp1 : get_num_producers buf = 1) (hc1 : get_num_consumers buf = 1)
    (hz : buf.zero_frames = false)
    (hrun : runOps rc buf ops = some (rc', buf')) :
    ∀ s, buf'.frames s = buf.frames s := by
  clear hops hp1 hc1 hz
  induction ops generalizing rc buf with
  | nil =>
    simp only [runOps] at hrun
    injection hrun with hrun
    obtain ⟨h1, h2⟩ := Prod.mk.inj hrun
    rw [← h2]
    exact fun s => rfl
  | cons op rest ih =>
    simp only [runOps] at hrun
    split at hrun
    · exact absurd hrun (by simp)
    · rename_i rc1 b1 happ
      intro s
      rw [ih hrun s]
      rw [show b1.frames = buf.frames from (applyOp_skeleton happ).1]

/-- C9, witness: the fill/drain cycle of `c9Ops` completes and leaves the
storage pointer of slot 0 (and every slot) unchanged. -/
theorem acquire_release_preserve_frames_witness :
    (runOps (fun _ => 0) c9Buf c9Ops).isSome = true ∧
    (runOps (fun _ => 0) c9Buf c9Ops).elim True
      (fun r => ∀ s, r.2.frames s = c9Buf.frames s) := by
  constructor
  · decide
  · cases hrun : runOps (fun _ => 0) c9Buf c9Ops with
    | none => exact trivial
    | some r =>
      have hrun2 : runOps (fun _ => 0) c9Buf c9Ops = some (r.1, r.2) := by rw [hrun]
      exact acquire_release_preserve_frames
        (by
          intro op hop
          simp only [c9Ops, List.mem_cons, List.not_mem_nil, or_false] at hop
          rcases hop with rfl | rfl | rfl | rfl | rfl
          · exact Or.inl ⟨_, _, rfl⟩
          · exact Or.inr (Or.inr (Or.inl ⟨_, _, _, rfl⟩))
          · exact Or.inr (Or.inl ⟨_, _, rfl⟩)
          · exact Or.inr (Or.inr (Or.inr ⟨_, _, rfl⟩))
          · exact Or.inl ⟨_, _, rfl⟩)
        (by decide) (by decide) rfl hrun2

/-- C10: `wait_for_full_frame` performs no range check on the slot index —
for any out-of-range index it still runs to the per-slot array accesses and
returns an outcome — whereas `wait_for_empty_frame`, `mark_frame_full` and
`mark_frame_empty` all assert `0 <= ID < num_frames` on entry and abort on
an out-of-range index. -/
theorem wait_for_full_frame_no_range_check {buf : Buffer} {name pname : String}
    (cid pid : Nat)
    (hcid : private_get_consumer_id buf name = some cid)
    (hpid : private_get_producer_id buf pname = some pid) :
    ∀ id, buf.num_frames ≤ id →
      (wait_for_full_frame buf name id).isSome = true ∧
      wait_for_empty_frame buf pname id = none ∧
      (∀ rc now, mark_frame_full rc buf pname id now = none) ∧
      (∀ rc, mark_frame_empty rc buf name id = none) := by
  intro id hid
  have hnid : ¬ (id < buf.num_frames) := Nat.not_lt.mpr hid
  refine ⟨?_, ?_, ?_, ?_⟩
  · unfold wait_for_full_frame
    simp only [hcid]
    by_cases hsd : buf.shutdown_signal = true
    · rw [if_pos hsd]
      rfl
    · rw [if_neg hsd]
      by_cases hblk : (!buf.is_full id || buf.consumers_done id cid) = true
      · rw [if_pos hblk]
        rfl
      · rw [if_neg hblk]
        rfl
  · unfold wait_for_empty_frame
    rw [if_neg hnid]
  · intro rc now
    unfold mark_frame_full
    rw [if_neg hnid]
  · intro rc
    unfold mark_frame_empty
    rw [if_neg hnid]

/-- C10, witness: on `c9Buf` (producer "p" and consumer "c" registered,
one slot) the out-of-range index 1 aborts the three checked calls but not
`wait_for_full_frame`. -/
theorem wait_for_full_frame_no_range_check_witness :
    c9Buf.num_frames ≤ 1 ∧
    ((wait_for_full_frame c9Buf "c" 1).isSome = true ∧
      wait_for_empty_frame c9Buf "p" 1 = none ∧
      (∀ rc now, mark_frame_full rc c9Buf "p" 1 now = none) ∧
      (∀ rc, mark_frame_empty rc c9Buf "c" 1 = none)) :=
  ⟨by decide, wait_for_full_frame_no_range_check 0 0
    (by decide) (by decide) 1 (by decide)⟩
